import Mathlib

/-!
# Electric lock (`main.c`, MSP430F5529)

A shallow embedding of the firmware in `src/main.c`: the eight global
variables, the peripheral registers the code reads and writes, the body of
the `while (1)` loop of `main` and the four interrupt service routines.

Conventions of the embedding.

* `uint8_t` globals and 8-bit port registers are `Nat`; a write to an 8-bit
  register is reduced `% 256`, a write to a 16-bit register `% 65536`.
* The operand `~m` of `r &= ~m` is the 16-bit complement `0xFFFF ^^^ m`
  (`int` is 16 bits wide on the MSP430).
* Input registers (`P1IN`, `ADC12IV`, `ADC12MEM0`, `ADC12MEM1`) are
  arguments of the routine that reads them.
* One pass through the body of `while (1)` is the function `loopIteration`;
  it is the composition of the block of lines 148-161 (`checkStep`) and the
  block of lines 163-178 (`pressStep`).  Interrupt routines are functions on
  the state and are interleaved between loop iterations by `run`.
-/

namespace ElectricLock

/-! ## Constants of the device header -/

/-- Port bit mask `BIT4` of the device header `msp430.h` (0x0010). -/
def BIT4 : Nat := 0x0010

/-- Port bit mask `BIT5` of the device header `msp430.h` (0x0020). -/
def BIT5 : Nat := 0x0020

/-- Timer mode-control bit 0 of `TAxCTL` (`MC0`, 0x0010). -/
def MC0 : Nat := 0x0010

/-- Timer mode-control bit 1 of `TAxCTL` (`MC1`, 0x0020). -/
def MC1 : Nat := 0x0020

/-- Timer mode "up to CCR0" (`MC__UP`, 0x0010). -/
def MC__UP : Nat := 0x0010

/-- Timer clear bit of `TAxCTL` (`TACLR`, 0x0004). -/
def TACLR : Nat := 0x0004

/-- Timer clock source ACLK (`TASSEL__ACLK`, 0x0100). -/
def TASSEL__ACLK : Nat := 0x0100

/-! ## Data model -/

/-- The two displays (`active_display_t`, lines 72-75). -/
inductive active_display_t where
  | DISP1
  | DISP2
  deriving DecidableEq, Repr

/-- Globals of `main.c` (lines 37-80) together with the peripheral state the
code touches.  `display1_on`, `display2_on` and `segments` stand for the
effect of the 7-segment driver, see `HAL_7SEG_DISPLAY_1_ON`. -/
structure State where
  real_cipher_low : Nat
  real_cipher_high : Nat
  curr_cipher_low : Nat
  curr_cipher_high : Nat
  check : Nat
  unlocked : Nat
  waiting_new_cipher : Nat
  button_pressed : Nat
  activeDisplay : active_display_t
  P2OUT : Nat
  P1IFG : Nat
  P1IE : Nat
  TA2CTL : Nat
  display1_on : Bool
  display2_on : Bool
  segments : Nat
  deriving DecidableEq, Repr

/-- The assignment `r |= m` on an 8-bit register. -/
def setBits8 (r m : Nat) : Nat := (r ||| m) % 256

/-- The assignment `r &= ~m` on an 8-bit register. -/
def clearBits8 (r m : Nat) : Nat := (r &&& (0xFFFF ^^^ m)) % 256

/-- The assignment `r |= m` on a 16-bit register. -/
def setBits16 (r m : Nat) : Nat := (r ||| m) % 65536

/-- The assignment `r &= ~m` on a 16-bit register. -/
def clearBits16 (r m : Nat) : Nat := (r &&& (0xFFFF ^^^ m)) % 65536

/-! ## The 7-segment driver -/

/-- Modelled from the spec: the macro `HAL_7SEG_DISPLAY_1_ON` of
`ETF_5529_HAL/hal_7seg.h`, which is not among the sources.  The spec gives
the driver as "select panel, write digit": the macro enables panel 1 and
touches nothing else. -/
def HAL_7SEG_DISPLAY_1_ON (s : State) : State := { s with display1_on := true }

/-- Modelled from the spec: the macro `HAL_7SEG_DISPLAY_1_OFF` of
`ETF_5529_HAL/hal_7seg.h`: disables panel 1. -/
def HAL_7SEG_DISPLAY_1_OFF (s : State) : State := { s with display1_on := false }

/-- Modelled from the spec: the macro `HAL_7SEG_DISPLAY_2_ON` of
`ETF_5529_HAL/hal_7seg.h`: enables panel 2. -/
def HAL_7SEG_DISPLAY_2_ON (s : State) : State := { s with display2_on := true }

/-- Modelled from the spec: the macro `HAL_7SEG_DISPLAY_2_OFF` of
`ETF_5529_HAL/hal_7seg.h`: disables panel 2. -/
def HAL_7SEG_DISPLAY_2_OFF (s : State) : State := { s with display2_on := false }

/-- Modelled from the spec: the function `HAL_7Seg_WriteDigit` of
`ETF_5529_HAL/hal_7seg.h`: `writeDigit(value)` puts the digit on the segment
lines shared by the two panels. -/
def HAL_7Seg_WriteDigit (d : Nat) (s : State) : State := { s with segments := d }

/-! ## The main loop (lines 146-179) -/

/-- Lines 148-161: the cipher check. -/
def checkStep (s : State) : State :=
  if s.check = 1 ∧ s.waiting_new_cipher = 0 then
    let s1 : State :=
      if s.real_cipher_low = s.curr_cipher_low ∧ s.real_cipher_high = s.curr_cipher_high then
        { s with unlocked := 1, P2OUT := setBits8 s.P2OUT BIT4 }
      else
        { s with unlocked := 0, P2OUT := clearBits8 s.P2OUT BIT4 }
    { s1 with check := 0 }
  else
    { s with check := 0 }

/-- Lines 163-178: the button press. -/
def pressStep (s : State) : State :=
  if s.button_pressed = 1 ∧ s.unlocked = 1 then
    let s1 : State :=
      if s.waiting_new_cipher = 0 then
        { s with P2OUT := setBits8 s.P2OUT BIT5, waiting_new_cipher := 1 }
      else
        { s with
            P2OUT := clearBits8 s.P2OUT BIT5
            real_cipher_high := s.curr_cipher_high
            real_cipher_low := s.curr_cipher_low
            waiting_new_cipher := 0 }
    { s1 with button_pressed := 0 }
  else
    { s with button_pressed := 0 }

/-- One pass through the body of `while (1)` (lines 146-179). -/
def loopIteration (s : State) : State := pressStep (checkStep s)

/-! ## Interrupt service routines -/

/-- The routine `CCR0ISR` (lines 184-195), entered when the debounce timer A2
reaches `CCR0`; `P1IN` is the level of port 1 read at line 186. -/
def CCR0ISR (P1IN : Nat) (s : State) : State :=
  let s1 : State := if P1IN &&& BIT4 = 0 then { s with button_pressed := 1 } else s
  let s2 : State := { s1 with TA2CTL := clearBits16 s1.TA2CTL (MC0 ||| MC1) }
  let s3 : State := { s2 with TA2CTL := setBits16 s2.TA2CTL TACLR }
  let s4 : State := { s3 with P1IFG := clearBits8 s3.P1IFG BIT4 }
  { s4 with P1IE := setBits8 s4.P1IE BIT4 }

/-- The routine `P1ISR` (lines 202-213). -/
def P1ISR (s : State) : State :=
  if s.P1IFG &&& BIT4 ≠ 0 then
    let s1 : State := { s with TA2CTL := setBits16 s.TA2CTL MC__UP }
    let s2 : State := { s1 with P1IFG := clearBits8 s1.P1IFG BIT4 }
    { s2 with P1IE := clearBits8 s2.P1IE BIT4 }
  else
    s

/-- The expression `(uint8_t)((ADC12MEMx>>8)*9.0/15.0)` of lines 223 and 230.
The register is 16 bits wide.  The `double` product and quotient are taken
exactly, as rationals: the product is at most 2295 and is representable, the
exact quotient is a multiple of 1/5, so the rounding of the division never
crosses an integer and the truncating cast yields the floor of the exact
value.  The cast to `uint8_t` is `% 256`. -/
def scaleDigit (ADC12MEM : Nat) : Nat :=
  let hi : Nat := (ADC12MEM % 65536) >>> 8
  (Nat.floor ((hi : ℚ) * 9 / 15)) % 256

/-- The routine `ADC12ISR` (lines 214-251); `ADC12IV` is the interrupt vector
read at line 216 and `ADC12MEM0`, `ADC12MEM1` the conversion results. -/
def ADC12ISR (ADC12IV ADC12MEM0 ADC12MEM1 : Nat) (s : State) : State :=
  if ADC12IV = 6 then
    { s with curr_cipher_low := scaleDigit ADC12MEM0, check := 1 }
  else if ADC12IV = 8 then
    { s with curr_cipher_high := scaleDigit ADC12MEM1, check := 1 }
  else
    s

/-- The routine `TAIEISR` (lines 254-275): display multiplexing. -/
def TAIEISR (s : State) : State :=
  match s.activeDisplay with
  | .DISP1 =>
    let s1 := HAL_7SEG_DISPLAY_2_OFF (HAL_7SEG_DISPLAY_1_ON s)
    let s2 := HAL_7Seg_WriteDigit s1.curr_cipher_high s1
    { s2 with activeDisplay := .DISP2 }
  | .DISP2 =>
    let s1 := HAL_7SEG_DISPLAY_2_ON (HAL_7SEG_DISPLAY_1_OFF s)
    let s2 := HAL_7Seg_WriteDigit s1.curr_cipher_low s1
    { s2 with activeDisplay := .DISP1 }

/-! ## Power-up and executions -/

/-- The state when interrupts are enabled at line 144: the initialisers of
lines 37-67 and the set-up code of lines 88-141.  `P2OUT0`, `P1IFG0`, `P1IE0`
are the register contents before the set-up code and `segments0` the
segment lines left by `HAL_7Seg_Init`. -/
def initState (P2OUT0 P1IFG0 P1IE0 segments0 : Nat) : State :=
  { real_cipher_low := 3
    real_cipher_high := 0
    curr_cipher_low := 0
    curr_cipher_high := 0
    check := 1
    unlocked := 0
    waiting_new_cipher := 0
    button_pressed := 0
    activeDisplay := .DISP1
    P2OUT := clearBits8 P2OUT0 (BIT4 ||| BIT5)
    P1IFG := clearBits8 P1IFG0 BIT4
    P1IE := setBits8 P1IE0 BIT4
    TA2CTL := TASSEL__ACLK
    display1_on := true
    display2_on := false
    segments := segments0 }

/-- What can happen after line 144: a pass of the main loop or one of the
four interrupts, with the values of the input registers it reads. -/
inductive Event where
  | loop
  | adc (ADC12IV ADC12MEM0 ADC12MEM1 : Nat)
  | edge
  | debounce (P1IN : Nat)
  | tick
  deriving DecidableEq, Repr

/-- A falling edge on P1.4: the port latches `P1IFG.4`, and `P1ISR` is
entered when the interrupt is enabled in `P1IE`. -/
def fallingEdge (s : State) : State :=
  let s1 : State := { s with P1IFG := setBits8 s.P1IFG BIT4 }
  if s1.P1IE &&& BIT4 ≠ 0 then P1ISR s1 else s1

/-- The effect of one event. -/
def step (s : State) : Event → State
  | .loop => loopIteration s
  | .adc iv m0 m1 => ADC12ISR iv m0 m1 s
  | .edge => fallingEdge s
  | .debounce p => CCR0ISR p s
  | .tick => TAIEISR s

/-- The state after a sequence of events. -/
def run (s : State) (evs : List Event) : State := evs.foldl step s

/-- The raw samples carried by the event fit in 12 bits. -/
def Event.sample12 : Event → Bool
  | .adc _ m0 m1 => decide (m0 ≤ 4095) && decide (m1 ≤ 4095)
  | _ => true

/-! ## Vocabulary of the specification -/

/-- `LockStatus` of the specification. -/
inductive LockStatus where
  | Locked
  | Unlocked
  deriving DecidableEq, Repr

/-- `ProgrammingState` of the specification. -/
inductive ProgrammingState where
  | Idle
  | AwaitingConfirm
  deriving DecidableEq, Repr

/-- The lock is unlocked when `unlocked == 1`, the test of line 163. -/
def State.lockStatus (s : State) : LockStatus :=
  if s.unlocked = 1 then .Unlocked else .Locked

/-- The owner is changing the cipher unless `waiting_new_cipher == 0`, the
test of lines 148 and 164. -/
def State.programmingState (s : State) : ProgrammingState :=
  if s.waiting_new_cipher = 0 then .Idle else .AwaitingConfirm

/-- `ReadingDirty`: `check == 1`, the test of line 148. -/
def State.readingDirty (s : State) : Bool := s.check == 1

/-- `PendingPress`: `button_pressed == 1`, the test of line 163. -/
def State.pendingPress (s : State) : Bool := s.button_pressed == 1

/-- The diode on P2.4 is lit. -/
def State.unlockIndicator (s : State) : Bool := (s.P2OUT &&& BIT4) != 0

/-- The diode on P2.5 is lit. -/
def State.programmingIndicator (s : State) : Bool := (s.P2OUT &&& BIT5) != 0

/-- `Cipher` as the pair (low, high). -/
def State.cipher (s : State) : Nat × Nat := (s.real_cipher_low, s.real_cipher_high)

/-- `CurrentReading` as the pair (low, high). -/
def State.reading (s : State) : Nat × Nat := (s.curr_cipher_low, s.curr_cipher_high)

/-- All four digits, of the Cipher and of CurrentReading, lie in [0,9]. -/
def State.digitsInRange (s : State) : Prop :=
  s.real_cipher_low ≤ 9 ∧ s.real_cipher_high ≤ 9 ∧
  s.curr_cipher_low ≤ 9 ∧ s.curr_cipher_high ≤ 9

instance (s : State) : Decidable s.digitsInRange := by
  unfold State.digitsInRange; infer_instance

/-- The debounce timer A2 is stopped: the mode-control field of `TA2CTL` is 0. -/
def State.debounceTimerStopped (s : State) : Prop := s.TA2CTL &&& (MC0 ||| MC1) = 0

/-- The clear bit `TACLR` has been written to `TA2CTL`. -/
def State.debounceTimerCleared (s : State) : Prop := s.TA2CTL &&& TACLR ≠ 0

/-- The P1.4 edge interrupt is enabled in `P1IE`. -/
def State.edgeInterruptEnabled (s : State) : Prop := s.P1IE &&& BIT4 ≠ 0

/-- The P1.4 interrupt flag is pending in `P1IFG`. -/
def State.edgeFlagPending (s : State) : Prop := s.P1IFG &&& BIT4 ≠ 0

/-- The guard state Armed of the specification: edge interrupt enabled, no
stale edge flag, debounce timer stopped. -/
def State.guardArmed (s : State) : Prop :=
  s.edgeInterruptEnabled ∧ ¬ s.edgeFlagPending ∧ s.debounceTimerStopped

instance (s : State) : Decidable s.debounceTimerStopped := by
  unfold State.debounceTimerStopped; infer_instance

instance (s : State) : Decidable s.debounceTimerCleared := by
  unfold State.debounceTimerCleared; infer_instance

instance (s : State) : Decidable s.edgeInterruptEnabled := by
  unfold State.edgeInterruptEnabled; infer_instance

instance (s : State) : Decidable s.edgeFlagPending := by
  unfold State.edgeFlagPending; infer_instance

instance (s : State) : Decidable s.guardArmed := by
  unfold State.guardArmed; infer_instance

/-! ## Concrete executions -/

/-- Power-up with all prior register contents zero. -/
def powerUp : State := initState 0 0 0 0

/-- From power-up: the dials are turned to the default cipher (3,0), the lock
opens, a debounced press starts the change of cipher, and the dials are then
turned to (7,2).  The reading is dirty and the owner is changing the cipher. -/
def dialledWhileProgramming : State :=
  run powerUp [.adc 6 0x600 0, .loop, .debounce 0, .loop, .adc 6 0xC00 0, .adc 8 0 0x400]

/-- One sampling cycle: the completion of `ADC12MEM0` (vector 6) and then of
`ADC12MEM1` (vector 8), each served by `ADC12ISR`. -/
def sampleBoth (ADC12MEM0 ADC12MEM1 : Nat) (s : State) : State :=
  ADC12ISR 8 ADC12MEM0 ADC12MEM1 (ADC12ISR 6 ADC12MEM0 ADC12MEM1 s)

/-- The second half of a change of cipher: the sampler writes both digits,
the main loop runs `n` times, the debounce timer expires with port level
`P1IN`, and the main loop runs once more. -/
def confirmRun (s : State) (ADC12MEM0 ADC12MEM1 n P1IN : Nat) : State :=
  loopIteration (CCR0ISR P1IN (loopIteration^[n] (sampleBoth ADC12MEM0 ADC12MEM1 s)))

/-- From power-up: the dials are turned to the default cipher (3,0), the lock
opens and a debounced press starts the change of cipher. -/
def armedForChange : State :=
  run powerUp [.adc 6 0x600 0, .loop, .debounce 0, .loop]

/-- From power-up: the dials are turned to the default cipher (3,0), the lock
opens and the debounce timer expires with the button held. -/
def unlockedWithPress : State :=
  run powerUp [.adc 6 0x600 0, .loop, .debounce 0]

/-- From power-up: the debounce timer expires with the button held while the
dials are still at (0,0). -/
def lockedWithPress : State :=
  run powerUp [.loop, .debounce 0]

/-- The state `dialledWhileProgramming` followed by a debounce expiry with
the button held: the second press is pending. -/
def confirmPending : State := CCR0ISR 0 dialledWhileProgramming

/-! ## Vocabulary of the debounce and display claims -/

/-- The debounce timer A2 counts up to `CCR0`: the mode-control field of
`TA2CTL` is `MC__UP`. -/
def State.debounceTimerRunning (s : State) : Prop := s.TA2CTL &&& (MC0 ||| MC1) = MC__UP

instance (s : State) : Decidable s.debounceTimerRunning := by
  unfold State.debounceTimerRunning; infer_instance

/-- The number of events of a run at which PendingPress goes from clear to
set. -/
def pressCount : State → List Event → Nat
  | _, [] => 0
  | s, e :: rest =>
    (if s.pendingPress = false ∧ (step s e).pendingPress = true then 1 else 0)
      + pressCount (step s e) rest

/-- The other display. -/
def otherDisplay : active_display_t → active_display_t
  | .DISP1 => .DISP2
  | .DISP2 => .DISP1

/-- The digit of CurrentReading assigned to a panel: lines 262 and 270 write
the high digit while panel 1 is selected and the low digit while panel 2 is. -/
def panelDigit (d : active_display_t) (s : State) : Nat :=
  match d with
  | .DISP1 => s.curr_cipher_high
  | .DISP2 => s.curr_cipher_low

/-- The panel is enabled. -/
def State.panelEnabled (s : State) (d : active_display_t) : Bool :=
  match d with
  | .DISP1 => s.display1_on
  | .DISP2 => s.display2_on

/-- The event is a display refresh tick. -/
def Event.isTick : Event → Bool
  | .tick => true
  | _ => false

/-- CurrentReading keeps its value at every event of the run. -/
def readingConstant : State → List Event → Bool
  | _, [] => true
  | s, e :: rest => decide ((step s e).reading = s.reading) && readingConstant (step s e) rest

/-- While the state is Idle, `unlocked` records the outcome of the comparison
of line 149 for the present Cipher and CurrentReading. -/
def State.statusSettled (s : State) : Prop :=
  s.waiting_new_cipher = 0 →
    (s.unlocked = 1 ↔
      (s.real_cipher_low = s.curr_cipher_low ∧ s.real_cipher_high = s.curr_cipher_high))

/-- Power-up followed by the sampling of the default cipher (3,0): the reading
is dirty and not yet evaluated. -/
def dialledDefault : State := run powerUp [.adc 6 0x600 0]

/-- From power-up: the dials are sampled as (4,0) and the loop runs; the lock
stays closed on the cipher (3,0). -/
def dialledFourZero : State := run powerUp [.adc 6 0x700 0, .adc 8 0 0, .loop]

/-- From power-up: the dials are sampled as (3,0) and the debounce timer
expires with the button held, before the loop has run: Locked, with both
ReadingDirty and PendingPress set. -/
def lockedMatchWithPress : State := run powerUp [.adc 6 0x600 0, .debounce 0]

/-- From power-up: the lock is opened with (3,0), the low dial is then
sampled as 0 and the debounce timer expires with the button held: Unlocked,
reading (0,0), with both ReadingDirty and PendingPress set. -/
def unlockedMismatchWithPress : State :=
  run powerUp [.adc 6 0x600 0, .loop, .adc 6 0 0, .debounce 0]

/-- While the owner is changing the cipher the lock is open. -/
def State.awaitingImpliesUnlocked (s : State) : Prop :=
  s.programmingState = .AwaitingConfirm → s.lockStatus = .Unlocked

/-- Each diode shows its variable: P2.4 is lit exactly when the lock is open
and P2.5 exactly when the owner is changing the cipher. -/
def State.indicatorsAgree (s : State) : Prop :=
  (s.unlockIndicator = true ↔ s.lockStatus = .Unlocked) ∧
  (s.programmingIndicator = true ↔ s.programmingState = .AwaitingConfirm)

/-! ## Register arithmetic -/

theorem testBit_setBits8 (r m i : Nat) :
    (setBits8 r m).testBit i = (decide (i < 8) && (r.testBit i || m.testBit i)) := by
  have h : (256 : Nat) = 2 ^ 8 := by decide
  rw [setBits8, h, Nat.testBit_mod_two_pow, Nat.testBit_or]

theorem testBit_clearBits8 (r m i : Nat) :
    (clearBits8 r m).testBit i
      = (decide (i < 8) && (r.testBit i && (Nat.testBit 0xFFFF i ^^ m.testBit i))) := by
  have h : (256 : Nat) = 2 ^ 8 := by decide
  rw [clearBits8, h, Nat.testBit_mod_two_pow, Nat.testBit_and, Nat.testBit_xor]

theorem testBit_setBits16 (r m i : Nat) :
    (setBits16 r m).testBit i = (decide (i < 16) && (r.testBit i || m.testBit i)) := by
  have h : (65536 : Nat) = 2 ^ 16 := by decide
  rw [setBits16, h, Nat.testBit_mod_two_pow, Nat.testBit_or]

theorem testBit_clearBits16 (r m i : Nat) :
    (clearBits16 r m).testBit i
      = (decide (i < 16) && (r.testBit i && (Nat.testBit 0xFFFF i ^^ m.testBit i))) := by
  have h : (65536 : Nat) = 2 ^ 16 := by decide
  rw [clearBits16, h, Nat.testBit_mod_two_pow, Nat.testBit_and, Nat.testBit_xor]

theorem and_BIT4_eq_zero_iff (r : Nat) : r &&& BIT4 = 0 ↔ r.testBit 4 = false := by
  have h : BIT4 = 2 ^ 4 := by decide
  rw [h, Nat.and_two_pow]
  cases r.testBit 4 <;> simp

theorem and_BIT5_eq_zero_iff (r : Nat) : r &&& BIT5 = 0 ↔ r.testBit 5 = false := by
  have h : BIT5 = 2 ^ 5 := by decide
  rw [h, Nat.and_two_pow]
  cases r.testBit 5 <;> simp

theorem unlockIndicator_eq (s : State) : s.unlockIndicator = s.P2OUT.testBit 4 := by
  unfold State.unlockIndicator
  cases h : s.P2OUT.testBit 4
  · simp [(and_BIT4_eq_zero_iff s.P2OUT).2 h]
  · have : ¬ (s.P2OUT &&& BIT4 = 0) := by
      rw [and_BIT4_eq_zero_iff, h]; simp
    simp [this]

theorem programmingIndicator_eq (s : State) : s.programmingIndicator = s.P2OUT.testBit 5 := by
  unfold State.programmingIndicator
  cases h : s.P2OUT.testBit 5
  · simp [(and_BIT5_eq_zero_iff s.P2OUT).2 h]
  · have : ¬ (s.P2OUT &&& BIT5 = 0) := by
      rw [and_BIT5_eq_zero_iff, h]; simp
    simp [this]

theorem setBIT4_bit4 (r : Nat) : (setBits8 r BIT4).testBit 4 = true := by
  rw [testBit_setBits8, show BIT4.testBit 4 = true by decide]; simp

theorem setBIT4_bit5 (r : Nat) : (setBits8 r BIT4).testBit 5 = r.testBit 5 := by
  rw [testBit_setBits8, show BIT4.testBit 5 = false by decide]; simp

theorem clearBIT4_bit4 (r : Nat) : (clearBits8 r BIT4).testBit 4 = false := by
  rw [testBit_clearBits8, show BIT4.testBit 4 = true by decide,
    show Nat.testBit 0xFFFF 4 = true by decide]; simp

theorem clearBIT4_bit5 (r : Nat) : (clearBits8 r BIT4).testBit 5 = r.testBit 5 := by
  rw [testBit_clearBits8, show BIT4.testBit 5 = false by decide,
    show Nat.testBit 0xFFFF 5 = true by decide]; simp

theorem setBIT5_bit5 (r : Nat) : (setBits8 r BIT5).testBit 5 = true := by
  rw [testBit_setBits8, show BIT5.testBit 5 = true by decide]; simp

theorem setBIT5_bit4 (r : Nat) : (setBits8 r BIT5).testBit 4 = r.testBit 4 := by
  rw [testBit_setBits8, show BIT5.testBit 4 = false by decide]; simp

theorem clearBIT5_bit5 (r : Nat) : (clearBits8 r BIT5).testBit 5 = false := by
  rw [testBit_clearBits8, show BIT5.testBit 5 = true by decide,
    show Nat.testBit 0xFFFF 5 = true by decide]; simp

theorem clearBIT5_bit4 (r : Nat) : (clearBits8 r BIT5).testBit 4 = r.testBit 4 := by
  rw [testBit_clearBits8, show BIT5.testBit 4 = false by decide,
    show Nat.testBit 0xFFFF 4 = true by decide]; simp

/-! ## The digit scaling -/

theorem floor_scale (n : Nat) : Nat.floor ((n : ℚ) * 9 / 15) = n * 9 / 15 := by
  have h : (n : ℚ) * 9 / 15 = ((n * 9 : ℕ) : ℚ) / ((15 : ℕ) : ℚ) := by
    push_cast; ring
  rw [h, Nat.floor_div_eq_div]

theorem highByte_lt (m : Nat) : (m % 65536) >>> 8 < 256 := by
  rw [Nat.shiftRight_eq_div_pow]; omega

theorem scaleDigit_eq (m : Nat) : scaleDigit m = ((m % 65536) >>> 8) * 9 / 15 := by
  unfold scaleDigit
  simp only [floor_scale]
  have := highByte_lt m
  omega

/-! ## Frame lemmas for the two blocks of the loop -/

theorem checkStep_check (s : State) : (checkStep s).check = 0 := by
  unfold checkStep; split <;> [split; skip] <;> rfl

theorem checkStep_cipher (s : State) :
    (checkStep s).real_cipher_low = s.real_cipher_low ∧
    (checkStep s).real_cipher_high = s.real_cipher_high := by
  unfold checkStep; split <;> [split; skip] <;> exact ⟨rfl, rfl⟩

theorem checkStep_reading (s : State) :
    (checkStep s).curr_cipher_low = s.curr_cipher_low ∧
    (checkStep s).curr_cipher_high = s.curr_cipher_high := by
  unfold checkStep; split <;> [split; skip] <;> exact ⟨rfl, rfl⟩

theorem checkStep_waiting (s : State) :
    (checkStep s).waiting_new_cipher = s.waiting_new_cipher := by
  unfold checkStep; split <;> [split; skip] <;> rfl

theorem checkStep_button (s : State) :
    (checkStep s).button_pressed = s.button_pressed := by
  unfold checkStep; split <;> [split; skip] <;> rfl

theorem checkStep_bit5 (s : State) :
    (checkStep s).P2OUT.testBit 5 = s.P2OUT.testBit 5 := by
  unfold checkStep
  split <;> [split; skip]
  · exact setBIT4_bit5 _
  · exact clearBIT4_bit5 _
  · rfl

theorem pressStep_check (s : State) : (pressStep s).check = s.check := by
  unfold pressStep; split <;> [split; skip] <;> rfl

theorem pressStep_unlocked (s : State) : (pressStep s).unlocked = s.unlocked := by
  unfold pressStep; split <;> [split; skip] <;> rfl

theorem pressStep_reading (s : State) :
    (pressStep s).curr_cipher_low = s.curr_cipher_low ∧
    (pressStep s).curr_cipher_high = s.curr_cipher_high := by
  unfold pressStep; split <;> [split; skip] <;> exact ⟨rfl, rfl⟩

theorem pressStep_button (s : State) : (pressStep s).button_pressed = 0 := by
  unfold pressStep; split <;> [split; skip] <;> rfl

theorem pressStep_bit4 (s : State) :
    (pressStep s).P2OUT.testBit 4 = s.P2OUT.testBit 4 := by
  unfold pressStep
  split <;> [split; skip]
  · exact setBIT5_bit4 _
  · exact clearBIT5_bit4 _
  · rfl

/-- The check of lines 148-158 when it runs: the outcome of the comparison. -/
theorem checkStep_compare (s : State) (hc : s.check = 1) (hw : s.waiting_new_cipher = 0) :
    (checkStep s).unlocked =
        (if s.real_cipher_low = s.curr_cipher_low ∧ s.real_cipher_high = s.curr_cipher_high
          then 1 else 0) ∧
    (checkStep s).P2OUT.testBit 4 =
        decide (s.real_cipher_low = s.curr_cipher_low ∧
          s.real_cipher_high = s.curr_cipher_high) := by
  unfold checkStep
  rw [if_pos ⟨hc, hw⟩]
  by_cases h : s.real_cipher_low = s.curr_cipher_low ∧ s.real_cipher_high = s.curr_cipher_high
  · rw [if_pos h, if_pos h, decide_eq_true h]
    exact ⟨rfl, setBIT4_bit4 _⟩
  · rw [if_neg h, if_neg h, decide_eq_false h]
    exact ⟨rfl, clearBIT4_bit4 _⟩

/-- The check of lines 148-161 when it is skipped. -/
theorem checkStep_skip (s : State) (h : ¬ (s.check = 1 ∧ s.waiting_new_cipher = 0)) :
    checkStep s = { s with check := 0 } := by
  unfold checkStep
  rw [if_neg h]

theorem dialledWhileProgramming_eq : dialledWhileProgramming =
    { real_cipher_low := 3, real_cipher_high := 0, curr_cipher_low := 7, curr_cipher_high := 2,
      check := 1, unlocked := 1, waiting_new_cipher := 1, button_pressed := 0,
      activeDisplay := .DISP1, P2OUT := 48, P1IFG := 0, P1IE := 16, TA2CTL := 260,
      display1_on := true, display2_on := false, segments := 0 } := by
  simp only [dialledWhileProgramming, powerUp, run, List.foldl, step, ADC12ISR, scaleDigit_eq]
  decide

theorem readingDirty_iff (s : State) : s.readingDirty = true ↔ s.check = 1 := by
  simp [State.readingDirty]

theorem pendingPress_iff (s : State) : s.pendingPress = true ↔ s.button_pressed = 1 := by
  simp [State.pendingPress]

theorem lockStatus_unlocked_iff (s : State) : s.lockStatus = .Unlocked ↔ s.unlocked = 1 := by
  unfold State.lockStatus; split <;> simp [*]

theorem lockStatus_locked_iff (s : State) : s.lockStatus = .Locked ↔ s.unlocked ≠ 1 := by
  unfold State.lockStatus; split <;> simp [*]

theorem programmingState_idle_iff (s : State) :
    s.programmingState = .Idle ↔ s.waiting_new_cipher = 0 := by
  unfold State.programmingState; split <;> simp [*]

theorem programmingState_awaiting_iff (s : State) :
    s.programmingState = .AwaitingConfirm ↔ s.waiting_new_cipher ≠ 0 := by
  unfold State.programmingState; split <;> simp [*]

theorem lockStatus_congr {s t : State} (h : s.unlocked = t.unlocked) :
    s.lockStatus = t.lockStatus := by
  unfold State.lockStatus; rw [h]

/-! ## C1: the dirty evaluation -/

/-- C1 as stated fails: in the state `dialledWhileProgramming`, reachable from
power-up, ReadingDirty is set, the ProgrammingState is AwaitingConfirm and
CurrentReading (7,2) differs from the Cipher (3,0), yet one iteration of the
main loop leaves LockStatus Unlocked and the unlock indicator lit instead of
setting Locked. -/
theorem C1_counterexample :
    dialledWhileProgramming.readingDirty = true ∧
    dialledWhileProgramming.programmingState = .AwaitingConfirm ∧
    ¬ (dialledWhileProgramming.curr_cipher_low = dialledWhileProgramming.real_cipher_low ∧
        dialledWhileProgramming.curr_cipher_high = dialledWhileProgramming.real_cipher_high) ∧
    (loopIteration dialledWhileProgramming).lockStatus = .Unlocked ∧
    (loopIteration dialledWhileProgramming).unlockIndicator = true := by
  rw [dialledWhileProgramming_eq]
  decide

/-- C1 (amended): for every state in which ReadingDirty is set, one iteration
of the main loop clears ReadingDirty; when the ProgrammingState is Idle it
sets LockStatus to Unlocked if CurrentReading equals the Cipher held at the
start of the iteration in both digits and to Locked otherwise, and drives the
unlock indicator (P2.4) to the same value; when the ProgrammingState is
AwaitingConfirm the comparison is skipped and LockStatus and the unlock
indicator keep their values. -/
theorem C1_dirty_evaluation (s : State) (hd : s.readingDirty = true) :
    (loopIteration s).lockStatus =
      (if s.programmingState = .Idle then
        (if s.curr_cipher_low = s.real_cipher_low ∧ s.curr_cipher_high = s.real_cipher_high
          then LockStatus.Unlocked else LockStatus.Locked)
      else s.lockStatus) ∧
    (loopIteration s).unlockIndicator =
      (if s.programmingState = .Idle then
        decide (s.curr_cipher_low = s.real_cipher_low ∧
          s.curr_cipher_high = s.real_cipher_high)
      else s.unlockIndicator) ∧
    (loopIteration s).readingDirty = false := by
  have hc : s.check = 1 := (readingDirty_iff s).1 hd
  have hcheck : (loopIteration s).check = 0 := by
    unfold loopIteration; rw [pressStep_check, checkStep_check]
  have hdirty : (loopIteration s).readingDirty = false := by
    simp [State.readingDirty, hcheck]
  have hU : (loopIteration s).unlocked = (checkStep s).unlocked := pressStep_unlocked _
  have hB : (loopIteration s).P2OUT.testBit 4 = (checkStep s).P2OUT.testBit 4 :=
    pressStep_bit4 _
  rw [unlockIndicator_eq, unlockIndicator_eq, hB]
  by_cases hw : s.waiting_new_cipher = 0
  · have hI : s.programmingState = .Idle := (programmingState_idle_iff s).2 hw
    obtain ⟨h1, h2⟩ := checkStep_compare s hc hw
    rw [if_pos hI, if_pos hI]
    refine ⟨?_, ?_, hdirty⟩
    · by_cases hm : s.curr_cipher_low = s.real_cipher_low ∧
          s.curr_cipher_high = s.real_cipher_high
      · have hm2 : s.real_cipher_low = s.curr_cipher_low ∧
            s.real_cipher_high = s.curr_cipher_high := ⟨hm.1.symm, hm.2.symm⟩
        rw [if_pos hm, lockStatus_unlocked_iff, hU, h1, if_pos hm2]
      · have hm2 : ¬ (s.real_cipher_low = s.curr_cipher_low ∧
            s.real_cipher_high = s.curr_cipher_high) := fun h => hm ⟨h.1.symm, h.2.symm⟩
        rw [if_neg hm, lockStatus_locked_iff, hU, h1, if_neg hm2]
        decide
    · rw [h2]
      apply decide_eq_decide.2
      constructor <;> rintro ⟨a, b⟩ <;> exact ⟨a.symm, b.symm⟩
  · have hI : ¬ s.programmingState = .Idle := fun h => hw ((programmingState_idle_iff s).1 h)
    have hs : checkStep s = { s with check := 0 } := checkStep_skip s (fun h => hw h.2)
    rw [if_neg hI, if_neg hI, hs]
    refine ⟨?_, rfl, hdirty⟩
    apply lockStatus_congr
    rw [hU, hs]

/-- C1 (amended), at power-up: the reading (0,0) is dirty, the state is Idle,
and the first iteration locks. -/
theorem C1_dirty_evaluation_witness :
    powerUp.readingDirty = true ∧
    ((loopIteration powerUp).lockStatus =
      (if powerUp.programmingState = .Idle then
        (if powerUp.curr_cipher_low = powerUp.real_cipher_low ∧
            powerUp.curr_cipher_high = powerUp.real_cipher_high
          then LockStatus.Unlocked else LockStatus.Locked)
      else powerUp.lockStatus) ∧
    (loopIteration powerUp).unlockIndicator =
      (if powerUp.programmingState = .Idle then
        decide (powerUp.curr_cipher_low = powerUp.real_cipher_low ∧
          powerUp.curr_cipher_high = powerUp.real_cipher_high)
      else powerUp.unlockIndicator) ∧
    (loopIteration powerUp).readingDirty = false) :=
  ⟨by decide, C1_dirty_evaluation powerUp (by decide)⟩

/-! ## C2: committing a new cipher -/

/-- A pass of the loop with a press pending, the lock open and the owner
changing the cipher: the second press (lines 168-174). -/
theorem loopIteration_commit (t : State) (hp : t.button_pressed = 1) (hu : t.unlocked = 1)
    (hw : t.waiting_new_cipher ≠ 0) :
    loopIteration t =
      { t with
          check := 0
          P2OUT := clearBits8 t.P2OUT BIT5
          real_cipher_high := t.curr_cipher_high
          real_cipher_low := t.curr_cipher_low
          waiting_new_cipher := 0
          button_pressed := 0 } := by
  unfold loopIteration
  rw [checkStep_skip t (fun h => hw h.2)]
  unfold pressStep
  simp [hp, hu, hw]

/-- A pass of the loop without a press while the owner is changing the
cipher only clears the two flags. -/
theorem loopIteration_idle_pass (t : State) (hp : t.button_pressed ≠ 1)
    (hw : t.waiting_new_cipher ≠ 0) :
    loopIteration t = { t with check := 0, button_pressed := 0 } := by
  unfold loopIteration
  rw [checkStep_skip t (fun h => hw h.2)]
  unfold pressStep
  simp [hp]

theorem iterate_idle_pass (n : Nat) (t : State) (hp : n = 0 ∨ t.button_pressed ≠ 1)
    (hw : t.waiting_new_cipher ≠ 0) :
    (loopIteration^[n] t).unlocked = t.unlocked ∧
    (loopIteration^[n] t).waiting_new_cipher = t.waiting_new_cipher ∧
    (loopIteration^[n] t).curr_cipher_low = t.curr_cipher_low ∧
    (loopIteration^[n] t).curr_cipher_high = t.curr_cipher_high ∧
    (n = 0 ∨ (loopIteration^[n] t).button_pressed ≠ 1) := by
  induction n with
  | zero => exact ⟨rfl, rfl, rfl, rfl, Or.inl rfl⟩
  | succ k ih =>
    have hp1 : t.button_pressed ≠ 1 := hp.resolve_left (Nat.succ_ne_zero k)
    obtain ⟨h1, h2, h3, h4, h5⟩ := ih (Or.inr hp1)
    have hb : (loopIteration^[k] t).button_pressed ≠ 1 := by
      rcases h5 with h0 | h5
      · subst h0; exact hp1
      · exact h5
    rw [Function.iterate_succ_apply',
      loopIteration_idle_pass _ hb (by rw [h2]; exact hw)]
    exact ⟨h1, h2, h3, h4, Or.inr (show (0 : Nat) ≠ 1 by decide)⟩

theorem sampleBoth_fields (m0 m1 : Nat) (s : State) :
    sampleBoth m0 m1 s =
      { s with curr_cipher_low := scaleDigit m0, curr_cipher_high := scaleDigit m1,
               check := 1 } := by
  simp [sampleBoth, ADC12ISR]

theorem CCR0ISR_pressed (P1IN : Nat) (t : State) (h : P1IN &&& BIT4 = 0) :
    (CCR0ISR P1IN t).button_pressed = 1 := by
  simp [CCR0ISR, h]

theorem CCR0ISR_frame (P1IN : Nat) (t : State) :
    (CCR0ISR P1IN t).unlocked = t.unlocked ∧
    (CCR0ISR P1IN t).waiting_new_cipher = t.waiting_new_cipher ∧
    (CCR0ISR P1IN t).curr_cipher_low = t.curr_cipher_low ∧
    (CCR0ISR P1IN t).curr_cipher_high = t.curr_cipher_high ∧
    (CCR0ISR P1IN t).real_cipher_low = t.real_cipher_low ∧
    (CCR0ISR P1IN t).real_cipher_high = t.real_cipher_high ∧
    (CCR0ISR P1IN t).check = t.check ∧
    (CCR0ISR P1IN t).P2OUT = t.P2OUT := by
  unfold CCR0ISR
  by_cases h : P1IN &&& BIT4 = 0 <;> simp [h]

/-- C2: from every state with LockStatus Unlocked and ProgrammingState
AwaitingConfirm, for all raw samples whose digits are (a,b): after the
sampler has written CurrentReading = (a,b) (raising ReadingDirty), any number
`n` of main-loop iterations without a pending press, a debounce expiry with
the button still held (PendingPress set) and one more iteration, the Cipher is
(a,b), the ProgrammingState is Idle, the programming indicator is off and
LockStatus is Unlocked. -/
theorem C2_second_press_commits (s : State) (a b m0 m1 n P1IN : Nat)
    (hU : s.lockStatus = .Unlocked) (hA : s.programmingState = .AwaitingConfirm)
    (ha : scaleDigit m0 = a) (hb : scaleDigit m1 = b)
    (hidle : n = 0 ∨ s.pendingPress = false)
    (hpin : P1IN &&& BIT4 = 0) :
    (sampleBoth m0 m1 s).reading = (a, b) ∧
    (sampleBoth m0 m1 s).readingDirty = true ∧
    (confirmRun s m0 m1 n P1IN).cipher = (a, b) ∧
    (confirmRun s m0 m1 n P1IN).programmingState = .Idle ∧
    (confirmRun s m0 m1 n P1IN).programmingIndicator = false ∧
    (confirmRun s m0 m1 n P1IN).lockStatus = .Unlocked := by
  have hu : s.unlocked = 1 := (lockStatus_unlocked_iff s).1 hU
  have hw : s.waiting_new_cipher ≠ 0 := (programmingState_awaiting_iff s).1 hA
  have hs := sampleBoth_fields m0 m1 s
  have hidle2 : n = 0 ∨ (sampleBoth m0 m1 s).button_pressed ≠ 1 := by
    rcases hidle with h | h
    · exact Or.inl h
    · right
      rw [hs]
      intro hp
      have : s.pendingPress = true := (pendingPress_iff s).2 hp
      rw [h] at this
      exact Bool.false_ne_true this
  have hw2 : (sampleBoth m0 m1 s).waiting_new_cipher ≠ 0 := by rw [hs]; exact hw
  obtain ⟨i1, i2, i3, i4, _⟩ := iterate_idle_pass n (sampleBoth m0 m1 s) hidle2 hw2
  obtain ⟨c1, c2, c3, c4, _, _, _, _⟩ :=
    CCR0ISR_frame P1IN (loopIteration^[n] (sampleBoth m0 m1 s))
  have hfin := loopIteration_commit (CCR0ISR P1IN (loopIteration^[n] (sampleBoth m0 m1 s)))
    (CCR0ISR_pressed _ _ hpin)
    (by rw [c1, i1, hs]; exact hu)
    (by rw [c2, i2]; exact hw2)
  refine ⟨?_, ?_, ?_, ?_, ?_, ?_⟩
  · rw [hs]; simp [State.reading, ha, hb]
  · rw [hs]; rfl
  · unfold confirmRun
    rw [hfin]
    simp only [State.cipher]
    rw [c3, c4, i3, i4, hs]
    simp [ha, hb]
  · unfold confirmRun
    rw [hfin, programmingState_idle_iff]
  · unfold confirmRun
    rw [hfin, programmingIndicator_eq]
    exact clearBIT5_bit5 _
  · unfold confirmRun
    rw [hfin, lockStatus_unlocked_iff]
    show (CCR0ISR P1IN (loopIteration^[n] (sampleBoth m0 m1 s))).unlocked = 1
    rw [c1, i1, hs]; exact hu

theorem armedForChange_eq : armedForChange =
    { real_cipher_low := 3, real_cipher_high := 0, curr_cipher_low := 3, curr_cipher_high := 0,
      check := 0, unlocked := 1, waiting_new_cipher := 1, button_pressed := 0,
      activeDisplay := .DISP1, P2OUT := 48, P1IFG := 0, P1IE := 16, TA2CTL := 260,
      display1_on := true, display2_on := false, segments := 0 } := by
  simp only [armedForChange, powerUp, run, List.foldl, step, ADC12ISR, scaleDigit_eq]
  decide

theorem unlockedWithPress_eq : unlockedWithPress =
    { real_cipher_low := 3, real_cipher_high := 0, curr_cipher_low := 3, curr_cipher_high := 0,
      check := 0, unlocked := 1, waiting_new_cipher := 0, button_pressed := 1,
      activeDisplay := .DISP1, P2OUT := 16, P1IFG := 0, P1IE := 16, TA2CTL := 260,
      display1_on := true, display2_on := false, segments := 0 } := by
  simp only [unlockedWithPress, powerUp, run, List.foldl, step, ADC12ISR, scaleDigit_eq]
  decide

/-- C2, scenario 4 of the specification: with the Cipher (3,0) and the change
of cipher started, the dials go to (7,2), the loop runs twice, the press is
confirmed; the Cipher becomes (7,2), which differs from the old one. -/
theorem C2_second_press_commits_witness :
    armedForChange.cipher = (3, 0) ∧
    armedForChange.lockStatus = .Unlocked ∧
    armedForChange.programmingState = .AwaitingConfirm ∧
    scaleDigit 0xC00 = 7 ∧ scaleDigit 0x400 = 2 ∧
    ((2 : Nat) = 0 ∨ armedForChange.pendingPress = false) ∧
    (0 : Nat) &&& BIT4 = 0 ∧
    ((sampleBoth 0xC00 0x400 armedForChange).reading = (7, 2) ∧
    (sampleBoth 0xC00 0x400 armedForChange).readingDirty = true ∧
    (confirmRun armedForChange 0xC00 0x400 2 0).cipher = (7, 2) ∧
    (confirmRun armedForChange 0xC00 0x400 2 0).programmingState = .Idle ∧
    (confirmRun armedForChange 0xC00 0x400 2 0).programmingIndicator = false ∧
    (confirmRun armedForChange 0xC00 0x400 2 0).lockStatus = .Unlocked) :=
  ⟨by rw [armedForChange_eq]; decide,
   by rw [armedForChange_eq]; decide,
   by rw [armedForChange_eq]; decide,
   by rw [scaleDigit_eq]; decide,
   by rw [scaleDigit_eq]; decide,
   Or.inr (by rw [armedForChange_eq]; decide),
   by decide,
   C2_second_press_commits armedForChange 7 2 0xC00 0x400 2 0
     (by rw [armedForChange_eq]; decide)
     (by rw [armedForChange_eq]; decide)
     (by rw [scaleDigit_eq]; decide)
     (by rw [scaleDigit_eq]; decide)
     (Or.inr (by rw [armedForChange_eq]; decide))
     (by decide)⟩

/-! ## C3, C4, C5: the press -/

/-- C3: when, after the dirty-reading step of the iteration, LockStatus is
Unlocked, ProgrammingState is Idle and PendingPress is set, the iteration
sets ProgrammingState to AwaitingConfirm (`waiting_new_cipher = 1`), turns the
programming indicator (P2.5) on, leaves both Cipher digits unchanged and
clears PendingPress. -/
theorem C3_first_press_arms (s : State)
    (hU : (checkStep s).lockStatus = .Unlocked)
    (hI : (checkStep s).programmingState = .Idle)
    (hP : (checkStep s).pendingPress = true) :
    (loopIteration s).programmingState = .AwaitingConfirm ∧
    (loopIteration s).waiting_new_cipher = 1 ∧
    (loopIteration s).programmingIndicator = true ∧
    (loopIteration s).real_cipher_low = s.real_cipher_low ∧
    (loopIteration s).real_cipher_high = s.real_cipher_high ∧
    (loopIteration s).pendingPress = false := by
  have hu := (lockStatus_unlocked_iff _).1 hU
  have hw := (programmingState_idle_iff _).1 hI
  have hp := (pendingPress_iff _).1 hP
  have hc := checkStep_cipher s
  have hstep : loopIteration s =
      { checkStep s with
          P2OUT := setBits8 (checkStep s).P2OUT BIT5
          waiting_new_cipher := 1
          button_pressed := 0 } := by
    unfold loopIteration pressStep
    simp [hu, hw, hp]
  rw [hstep]
  refine ⟨?_, rfl, ?_, hc.1, hc.2, ?_⟩
  · rw [programmingState_awaiting_iff]; exact (show (1 : Nat) ≠ 0 by decide)
  · rw [programmingIndicator_eq]; exact setBIT5_bit5 _
  · rfl

/-- C3, scenario 3 of the specification: unlocked with the default cipher,
one confirmed press. -/
theorem C3_first_press_arms_witness :
    (checkStep unlockedWithPress).lockStatus = .Unlocked ∧
    (checkStep unlockedWithPress).programmingState = .Idle ∧
    (checkStep unlockedWithPress).pendingPress = true ∧
    ((loopIteration unlockedWithPress).programmingState = .AwaitingConfirm ∧
    (loopIteration unlockedWithPress).waiting_new_cipher = 1 ∧
    (loopIteration unlockedWithPress).programmingIndicator = true ∧
    (loopIteration unlockedWithPress).real_cipher_low = unlockedWithPress.real_cipher_low ∧
    (loopIteration unlockedWithPress).real_cipher_high = unlockedWithPress.real_cipher_high ∧
    (loopIteration unlockedWithPress).pendingPress = false) :=
  ⟨by rw [unlockedWithPress_eq]; decide,
   by rw [unlockedWithPress_eq]; decide,
   by rw [unlockedWithPress_eq]; decide,
   C3_first_press_arms unlockedWithPress
     (by rw [unlockedWithPress_eq]; decide)
     (by rw [unlockedWithPress_eq]; decide)
     (by rw [unlockedWithPress_eq]; decide)⟩

/-- C4: from every state with LockStatus Unlocked, ProgrammingState
AwaitingConfirm and PendingPress set, one iteration of the main loop sets the
low Cipher digit to the low reading digit and the high one to the high
reading digit, sets ProgrammingState to Idle, turns the programming indicator
off and clears PendingPress. -/
theorem C4_second_press_commit (s : State)
    (hU : s.lockStatus = .Unlocked)
    (hA : s.programmingState = .AwaitingConfirm)
    (hP : s.pendingPress = true) :
    (loopIteration s).real_cipher_low = s.curr_cipher_low ∧
    (loopIteration s).real_cipher_high = s.curr_cipher_high ∧
    (loopIteration s).programmingState = .Idle ∧
    (loopIteration s).programmingIndicator = false ∧
    (loopIteration s).pendingPress = false := by
  have h := loopIteration_commit s ((pendingPress_iff s).1 hP)
    ((lockStatus_unlocked_iff s).1 hU) ((programmingState_awaiting_iff s).1 hA)
  rw [h]
  refine ⟨rfl, rfl, ?_, ?_, rfl⟩
  · rw [programmingState_idle_iff]
  · rw [programmingIndicator_eq]; exact clearBIT5_bit5 _

theorem confirmPending_eq : confirmPending =
    { real_cipher_low := 3, real_cipher_high := 0, curr_cipher_low := 7, curr_cipher_high := 2,
      check := 1, unlocked := 1, waiting_new_cipher := 1, button_pressed := 1,
      activeDisplay := .DISP1, P2OUT := 48, P1IFG := 0, P1IE := 16, TA2CTL := 260,
      display1_on := true, display2_on := false, segments := 0 } := by
  rw [confirmPending, dialledWhileProgramming_eq]
  decide

/-- C4, scenario 4 of the specification: the reading is (7,2) and the second
press is pending; the iteration commits (7,2). -/
theorem C4_second_press_commit_witness :
    confirmPending.lockStatus = .Unlocked ∧
    confirmPending.programmingState = .AwaitingConfirm ∧
    confirmPending.pendingPress = true ∧
    ((loopIteration confirmPending).real_cipher_low = confirmPending.curr_cipher_low ∧
    (loopIteration confirmPending).real_cipher_high = confirmPending.curr_cipher_high ∧
    (loopIteration confirmPending).programmingState = .Idle ∧
    (loopIteration confirmPending).programmingIndicator = false ∧
    (loopIteration confirmPending).pendingPress = false) :=
  ⟨by rw [confirmPending_eq]; decide,
   by rw [confirmPending_eq]; decide,
   by rw [confirmPending_eq]; decide,
   C4_second_press_commit confirmPending
     (by rw [confirmPending_eq]; decide)
     (by rw [confirmPending_eq]; decide)
     (by rw [confirmPending_eq]; decide)⟩

/-- The press block when the lock is not open: only `button_pressed` is
written. -/
theorem pressStep_locked (t : State) (h : t.unlocked ≠ 1) :
    pressStep t = { t with button_pressed := 0 } := by
  unfold pressStep
  rw [if_neg (fun hh => h hh.2)]

/-- C5: for every state, if LockStatus is Locked when the press is handled
(after the dirty-reading step of the iteration) and PendingPress is set, the
iteration leaves both Cipher digits, the ProgrammingState and the programming
indicator unchanged and clears PendingPress; and an iteration that changes the
ProgrammingState is one whose LockStatus, when the press is handled, is
Unlocked. -/
theorem C5_press_while_locked (s : State) :
    ((checkStep s).lockStatus = .Locked → s.pendingPress = true →
      (loopIteration s).real_cipher_low = s.real_cipher_low ∧
      (loopIteration s).real_cipher_high = s.real_cipher_high ∧
      (loopIteration s).waiting_new_cipher = s.waiting_new_cipher ∧
      (loopIteration s).programmingState = s.programmingState ∧
      (loopIteration s).programmingIndicator = s.programmingIndicator ∧
      (loopIteration s).pendingPress = false) ∧
    ((loopIteration s).programmingState ≠ s.programmingState →
      (checkStep s).lockStatus = .Unlocked) := by
  have frame : (checkStep s).unlocked ≠ 1 →
      (loopIteration s).real_cipher_low = s.real_cipher_low ∧
      (loopIteration s).real_cipher_high = s.real_cipher_high ∧
      (loopIteration s).waiting_new_cipher = s.waiting_new_cipher ∧
      (loopIteration s).programmingState = s.programmingState ∧
      (loopIteration s).programmingIndicator = s.programmingIndicator ∧
      (loopIteration s).pendingPress = false := by
    intro hl
    have hstep : loopIteration s = { checkStep s with button_pressed := 0 } := by
      unfold loopIteration; exact pressStep_locked _ hl
    have hc := checkStep_cipher s
    have hw := checkStep_waiting s
    have hb := checkStep_bit5 s
    rw [hstep]
    refine ⟨hc.1, hc.2, hw, ?_, ?_, rfl⟩
    · unfold State.programmingState
      show (if (checkStep s).waiting_new_cipher = 0 then _ else _) = _
      rw [hw]
    · rw [programmingIndicator_eq, programmingIndicator_eq]
      exact hb
  constructor
  · intro hL _
    exact frame ((lockStatus_locked_iff _).1 hL)
  · intro hne
    by_contra hnu
    have hl : (checkStep s).unlocked ≠ 1 := fun h => hnu ((lockStatus_unlocked_iff _).2 h)
    exact hne (frame hl).2.2.2.1

/-- C5, scenario 5 of the specification: a confirmed press while the dials
mismatch the cipher changes nothing but the press flag. -/
theorem C5_press_while_locked_witness :
    (checkStep lockedWithPress).lockStatus = .Locked ∧
    lockedWithPress.pendingPress = true ∧
    ((loopIteration lockedWithPress).real_cipher_low = lockedWithPress.real_cipher_low ∧
    (loopIteration lockedWithPress).real_cipher_high = lockedWithPress.real_cipher_high ∧
    (loopIteration lockedWithPress).waiting_new_cipher = lockedWithPress.waiting_new_cipher ∧
    (loopIteration lockedWithPress).programmingState = lockedWithPress.programmingState ∧
    (loopIteration lockedWithPress).programmingIndicator
      = lockedWithPress.programmingIndicator ∧
    (loopIteration lockedWithPress).pendingPress = false) :=
  ⟨by decide, by decide,
   (C5_press_while_locked lockedWithPress).1 (by decide) (by decide)⟩

/-! ## C6: who writes the cipher -/

theorem pressStep_cipher_of_no_commit (t : State)
    (h : ¬ (t.button_pressed = 1 ∧ t.unlocked = 1 ∧ t.waiting_new_cipher ≠ 0)) :
    (pressStep t).cipher = t.cipher := by
  unfold pressStep
  by_cases hc : t.button_pressed = 1 ∧ t.unlocked = 1
  · rw [if_pos hc]
    by_cases hw : t.waiting_new_cipher = 0
    · simp [hw, State.cipher]
    · exact absurd ⟨hc.1, hc.2, hw⟩ h
  · rw [if_neg hc]; rfl

/-- C6: the Cipher is written by nothing but the second-press commit: from
every state, an ADC completion (whatever the vector and the samples), a port-1
edge interrupt, a debounce-timer expiry (whatever the pin level) and a display
tick leave both Cipher digits unchanged, and so does every main-loop iteration
that does not start with PendingPress set, LockStatus Unlocked and
ProgrammingState AwaitingConfirm. -/
theorem C6_cipher_frame (s : State) :
    (∀ iv m0 m1 : Nat, (ADC12ISR iv m0 m1 s).cipher = s.cipher) ∧
    (P1ISR s).cipher = s.cipher ∧
    (fallingEdge s).cipher = s.cipher ∧
    (∀ P1IN : Nat, (CCR0ISR P1IN s).cipher = s.cipher) ∧
    (TAIEISR s).cipher = s.cipher ∧
    (¬ (s.pendingPress = true ∧ s.lockStatus = .Unlocked ∧
          s.programmingState = .AwaitingConfirm) →
      (loopIteration s).cipher = s.cipher) := by
  refine ⟨?_, ?_, ?_, ?_, ?_, ?_⟩
  · intro iv m0 m1
    unfold ADC12ISR
    split <;> [skip; split] <;> rfl
  · unfold P1ISR
    split <;> rfl
  · unfold fallingEdge P1ISR
    simp only
    split <;> [split; skip] <;> rfl
  · intro P1IN
    obtain ⟨_, _, _, _, h1, h2, _, _⟩ := CCR0ISR_frame P1IN s
    simp [State.cipher, h1, h2]
  · unfold TAIEISR
    split <;> rfl
  · intro h
    unfold loopIteration
    have hcs : (checkStep s).cipher = s.cipher := by
      have := checkStep_cipher s
      simp [State.cipher, this.1, this.2]
    rw [← hcs]
    apply pressStep_cipher_of_no_commit
    rintro ⟨hp, hu, hw⟩
    rw [checkStep_button] at hp
    rw [checkStep_waiting] at hw
    have hsk : checkStep s = { s with check := 0 } := checkStep_skip s (fun hh => hw hh.2)
    rw [hsk] at hu
    exact h ⟨(pendingPress_iff s).2 hp, (lockStatus_unlocked_iff s).2 hu,
      (programmingState_awaiting_iff s).2 hw⟩

/-- C6 at the state `unlockedWithPress`: a press is pending and the lock is
open, but the state is Idle, and the iteration keeps the Cipher (3,0). -/
theorem C6_cipher_frame_witness :
    ¬ (unlockedWithPress.pendingPress = true ∧ unlockedWithPress.lockStatus = .Unlocked ∧
        unlockedWithPress.programmingState = .AwaitingConfirm) ∧
    (loopIteration unlockedWithPress).cipher = unlockedWithPress.cipher :=
  ⟨by rw [unlockedWithPress_eq]; decide,
   (C6_cipher_frame unlockedWithPress).2.2.2.2.2 (by rw [unlockedWithPress_eq]; decide)⟩

/-! ## C7, C8: the digit stored by the ADC routine -/

theorem scaleDigit_of_le (r : Nat) (hr : r ≤ 65535) : scaleDigit r = (r >>> 8) * 9 / 15 := by
  rw [scaleDigit_eq, Nat.mod_eq_of_lt (by omega)]

theorem scaleDigit_le_nine_iff (r : Nat) (hr : r ≤ 65535) : scaleDigit r ≤ 9 ↔ r ≤ 4351 := by
  rw [scaleDigit_of_le r hr, Nat.shiftRight_eq_div_pow]
  constructor <;> intro h <;> omega

theorem scaleDigit_le_nine (r : Nat) (hr : r ≤ 4095) : scaleDigit r ≤ 9 :=
  (scaleDigit_le_nine_iff r (by omega)).2 (by omega)

/-- C7: for every 12-bit raw sample r, the digit stored by the ADC completion
handler equals floor((r >> 8) * 9 / 15) and lies in [0,9]; the MEM0 event
(vector 6) writes it to the low digit of CurrentReading and leaves the high
digit, the MEM1 event (vector 8) writes it to the high digit and leaves the
low digit, and both set ReadingDirty. -/
theorem C7_adc_digit (r other : Nat) (s : State) (hr : r ≤ 4095) :
    scaleDigit r = (r >>> 8) * 9 / 15 ∧
    scaleDigit r ≤ 9 ∧
    (ADC12ISR 6 r other s).curr_cipher_low = scaleDigit r ∧
    (ADC12ISR 6 r other s).curr_cipher_high = s.curr_cipher_high ∧
    (ADC12ISR 6 r other s).readingDirty = true ∧
    (ADC12ISR 8 other r s).curr_cipher_high = scaleDigit r ∧
    (ADC12ISR 8 other r s).curr_cipher_low = s.curr_cipher_low ∧
    (ADC12ISR 8 other r s).readingDirty = true :=
  ⟨scaleDigit_of_le r (by omega), scaleDigit_le_nine r hr, rfl, rfl, rfl, rfl, rfl, rfl⟩

/-- C7 at the top of the 12-bit range: the sample 4095 is stored as 9. -/
theorem C7_adc_digit_witness :
    (4095 : Nat) ≤ 4095 ∧
    (scaleDigit 4095 = (4095 >>> 8) * 9 / 15 ∧
    scaleDigit 4095 ≤ 9 ∧
    (ADC12ISR 6 4095 0 powerUp).curr_cipher_low = scaleDigit 4095 ∧
    (ADC12ISR 6 4095 0 powerUp).curr_cipher_high = powerUp.curr_cipher_high ∧
    (ADC12ISR 6 4095 0 powerUp).readingDirty = true ∧
    (ADC12ISR 8 0 4095 powerUp).curr_cipher_high = scaleDigit 4095 ∧
    (ADC12ISR 8 0 4095 powerUp).curr_cipher_low = powerUp.curr_cipher_low ∧
    (ADC12ISR 8 0 4095 powerUp).readingDirty = true) :=
  ⟨by decide, C7_adc_digit 4095 0 powerUp (by decide)⟩

/-- C8 as stated fails: the 16-bit register value 0xFFFF is stored as the
digit 153 on either channel, outside [0,9]. -/
theorem C8_counterexample :
    (ADC12ISR 6 0xFFFF 0 powerUp).curr_cipher_low = 153 ∧
    (ADC12ISR 8 0 0xFFFF powerUp).curr_cipher_high = 153 ∧
    ¬ ((ADC12ISR 6 0xFFFF 0 powerUp).curr_cipher_low ≤ 9) := by
  simp only [ADC12ISR, scaleDigit_eq]
  decide

/-- C8 (amended): for every 16-bit value r of the conversion result register,
the digit that the ADC completion handler stores into CurrentReading is
floor((r >> 8) * 9 / 15); it is at most 153, and it lies in [0,9] exactly
when r is at most 4351, which covers the 12-bit ADC range. -/
theorem C8_adc_digit_range (r other : Nat) (s : State) (hr : r ≤ 65535) :
    (ADC12ISR 6 r other s).curr_cipher_low = (r >>> 8) * 9 / 15 ∧
    (ADC12ISR 8 other r s).curr_cipher_high = (r >>> 8) * 9 / 15 ∧
    (r >>> 8) * 9 / 15 ≤ 153 ∧
    ((r >>> 8) * 9 / 15 ≤ 9 ↔ r ≤ 4351) := by
  have h := scaleDigit_of_le r hr
  refine ⟨h, h, ?_, ?_⟩
  · rw [Nat.shiftRight_eq_div_pow]; omega
  · rw [← h]; exact scaleDigit_le_nine_iff r hr

/-- C8 (amended) at the first value that leaves the digit range: 4352 is
stored as 10. -/
theorem C8_adc_digit_range_witness :
    (4352 : Nat) ≤ 65535 ∧
    ((ADC12ISR 6 4352 0 powerUp).curr_cipher_low = (4352 >>> 8) * 9 / 15 ∧
    (ADC12ISR 8 0 4352 powerUp).curr_cipher_high = (4352 >>> 8) * 9 / 15 ∧
    (4352 >>> 8) * 9 / 15 ≤ 153 ∧
    ((4352 >>> 8) * 9 / 15 ≤ 9 ↔ 4352 ≤ 4351)) :=
  ⟨by decide, C8_adc_digit_range 4352 0 powerUp (by decide)⟩

/-! ## C9: the digits stay in range -/

theorem digitsInRange_initState (a b c d : Nat) : (initState a b c d).digitsInRange := by
  unfold State.digitsInRange initState
  simp

theorem digitsInRange_checkStep (s : State) (h : s.digitsInRange) :
    (checkStep s).digitsInRange := by
  unfold State.digitsInRange at *
  rw [(checkStep_cipher s).1, (checkStep_cipher s).2, (checkStep_reading s).1,
    (checkStep_reading s).2]
  exact h

theorem digitsInRange_pressStep (s : State) (h : s.digitsInRange) :
    (pressStep s).digitsInRange := by
  obtain ⟨h1, h2, h3, h4⟩ := h
  unfold pressStep
  split <;> [split; skip]
  · exact ⟨h1, h2, h3, h4⟩
  · exact ⟨h3, h4, h3, h4⟩
  · exact ⟨h1, h2, h3, h4⟩

theorem digitsInRange_step (s : State) (e : Event) (h : s.digitsInRange)
    (he : e.sample12 = true) : (step s e).digitsInRange := by
  cases e with
  | loop => exact digitsInRange_pressStep _ (digitsInRange_checkStep _ h)
  | adc iv m0 m1 =>
    simp only [Event.sample12, Bool.and_eq_true, decide_eq_true_eq] at he
    obtain ⟨h1, h2, h3, h4⟩ := h
    simp only [step, ADC12ISR]
    split <;> [skip; split]
    · exact ⟨h1, h2, scaleDigit_le_nine m0 he.1, h4⟩
    · exact ⟨h1, h2, h3, scaleDigit_le_nine m1 he.2⟩
    · exact ⟨h1, h2, h3, h4⟩
  | edge =>
    obtain ⟨h1, h2, h3, h4⟩ := h
    simp only [step, fallingEdge, P1ISR]
    split <;> [split; skip] <;> exact ⟨h1, h2, h3, h4⟩
  | debounce p =>
    obtain ⟨h1, h2, h3, h4⟩ := h
    obtain ⟨_, _, c3, c4, c5, c6, _, _⟩ := CCR0ISR_frame p s
    simp only [step, State.digitsInRange]
    rw [c3, c4, c5, c6]
    exact ⟨h1, h2, h3, h4⟩
  | tick =>
    obtain ⟨h1, h2, h3, h4⟩ := h
    simp only [step, TAIEISR]
    split <;> exact ⟨h1, h2, h3, h4⟩

theorem digitsInRange_run (evs : List Event) (s : State) (h : s.digitsInRange)
    (he : ∀ e ∈ evs, e.sample12 = true) : (run s evs).digitsInRange := by
  induction evs generalizing s with
  | nil => exact h
  | cons e rest ih =>
    have h1 : e.sample12 = true := he e (List.mem_cons_self e rest)
    have h2 : ∀ x ∈ rest, x.sample12 = true := fun x hx => he x (List.mem_cons_of_mem e hx)
    exact ih (step s e) (digitsInRange_step s e h h1) h2

/-- C9: in every state reached from power-up (whatever the register contents
before the set-up code) by a sequence of main-loop iterations, ADC
completions, port-1 edges, debounce expiries and display ticks in which every
raw sample delivered by the ADC is a 12-bit value, both digits of the Cipher
and both digits of CurrentReading lie in [0,9]. -/
theorem C9_digits_in_range (P2OUT0 P1IFG0 P1IE0 segments0 : Nat) (evs : List Event)
    (h12 : ∀ e ∈ evs, e.sample12 = true) :
    (run (initState P2OUT0 P1IFG0 P1IE0 segments0) evs).real_cipher_low ≤ 9 ∧
    (run (initState P2OUT0 P1IFG0 P1IE0 segments0) evs).real_cipher_high ≤ 9 ∧
    (run (initState P2OUT0 P1IFG0 P1IE0 segments0) evs).curr_cipher_low ≤ 9 ∧
    (run (initState P2OUT0 P1IFG0 P1IE0 segments0) evs).curr_cipher_high ≤ 9 :=
  digitsInRange_run evs _ (digitsInRange_initState _ _ _ _) h12

/-- C9 along the run that reprograms the cipher with the largest 12-bit
samples. -/
theorem C9_digits_in_range_witness :
    (∀ e ∈ [Event.adc 6 0x600 0, .loop, .debounce 0, .loop, .adc 6 4095 0, .adc 8 0 4095,
        .edge, .tick, .debounce 0, .loop], e.sample12 = true) ∧
    ((run (initState 0 0 0 0) [Event.adc 6 0x600 0, .loop, .debounce 0, .loop, .adc 6 4095 0,
        .adc 8 0 4095, .edge, .tick, .debounce 0, .loop]).real_cipher_low ≤ 9 ∧
    (run (initState 0 0 0 0) [Event.adc 6 0x600 0, .loop, .debounce 0, .loop, .adc 6 4095 0,
        .adc 8 0 4095, .edge, .tick, .debounce 0, .loop]).real_cipher_high ≤ 9 ∧
    (run (initState 0 0 0 0) [Event.adc 6 0x600 0, .loop, .debounce 0, .loop, .adc 6 4095 0,
        .adc 8 0 4095, .edge, .tick, .debounce 0, .loop]).curr_cipher_low ≤ 9 ∧
    (run (initState 0 0 0 0) [Event.adc 6 0x600 0, .loop, .debounce 0, .loop, .adc 6 4095 0,
        .adc 8 0 4095, .edge, .tick, .debounce 0, .loop]).curr_cipher_high ≤ 9) :=
  ⟨by decide, C9_digits_in_range 0 0 0 0 _ (by decide)⟩

/-! ## C10: the debounce timer expires -/

theorem testBit_MC_mask (i : Nat) :
    (MC0 ||| MC1).testBit i = (decide (i = 4) || decide (i = 5)) := by
  by_cases h : i < 6
  · interval_cases i <;> decide
  · have h48 : (MC0 ||| MC1) < 2 ^ i :=
      calc (MC0 ||| MC1) < 2 ^ 6 := by decide
        _ ≤ 2 ^ i := Nat.pow_le_pow_right (by decide) (by omega)
    rw [Nat.testBit_lt_two_pow h48]
    have h4 : i ≠ 4 := by omega
    have h5 : i ≠ 5 := by omega
    simp [h4, h5]

theorem and_MC_eq_zero_iff (r : Nat) :
    r &&& (MC0 ||| MC1) = 0 ↔ r.testBit 4 = false ∧ r.testBit 5 = false := by
  constructor
  · intro h
    have h4 : (r &&& (MC0 ||| MC1)).testBit 4 = false := by rw [h]; exact Nat.zero_testBit 4
    have h5 : (r &&& (MC0 ||| MC1)).testBit 5 = false := by rw [h]; exact Nat.zero_testBit 5
    rw [Nat.testBit_and, testBit_MC_mask] at h4 h5
    simpa using And.intro h4 h5
  · rintro ⟨h4, h5⟩
    apply Nat.eq_of_testBit_eq
    intro i
    rw [Nat.testBit_and, testBit_MC_mask, Nat.zero_testBit]
    by_cases e4 : i = 4
    · subst e4; simp [h4]
    · by_cases e5 : i = 5
      · subst e5; simp [h5]
      · simp [e4, e5]

theorem and_TACLR_ne_zero_iff (r : Nat) : r &&& TACLR ≠ 0 ↔ r.testBit 2 = true := by
  have h : TACLR = 2 ^ 2 := by decide
  rw [h, Nat.and_two_pow]
  cases r.testBit 2 <;> simp

theorem and_BIT4_ne_zero_iff (r : Nat) : r &&& BIT4 ≠ 0 ↔ r.testBit 4 = true := by
  rw [Ne, and_BIT4_eq_zero_iff]
  cases r.testBit 4 <;> simp

theorem CCR0ISR_registers (P1IN : Nat) (s : State) :
    (CCR0ISR P1IN s).TA2CTL = setBits16 (clearBits16 s.TA2CTL (MC0 ||| MC1)) TACLR ∧
    (CCR0ISR P1IN s).P1IFG = clearBits8 s.P1IFG BIT4 ∧
    (CCR0ISR P1IN s).P1IE = setBits8 s.P1IE BIT4 ∧
    (CCR0ISR P1IN s).button_pressed = (if P1IN &&& BIT4 = 0 then 1 else s.button_pressed) := by
  unfold CCR0ISR
  by_cases h : P1IN &&& BIT4 = 0 <;> simp [h]

/-- C10: at debounce-timer expiry, for every state and every level of port 1,
PendingPress is set if the button pin P1.4 reads low and keeps its value if it
reads high; in both cases the timer is stopped (mode control 0) and its clear
bit written, the P1.4 flag is cleared and the edge interrupt is enabled again:
the guard is Armed. -/
theorem C10_debounce_expiry (P1IN : Nat) (s : State) :
    (CCR0ISR P1IN s).button_pressed = (if P1IN &&& BIT4 = 0 then 1 else s.button_pressed) ∧
    (CCR0ISR P1IN s).pendingPress = (if P1IN &&& BIT4 = 0 then true else s.pendingPress) ∧
    (CCR0ISR P1IN s).debounceTimerStopped ∧
    (CCR0ISR P1IN s).debounceTimerCleared ∧
    (CCR0ISR P1IN s).edgeInterruptEnabled ∧
    ¬ (CCR0ISR P1IN s).edgeFlagPending ∧
    (CCR0ISR P1IN s).guardArmed := by
  obtain ⟨hT, hF, hE, hB⟩ := CCR0ISR_registers P1IN s
  have hstop : (CCR0ISR P1IN s).debounceTimerStopped := by
    unfold State.debounceTimerStopped
    rw [hT, and_MC_eq_zero_iff, testBit_setBits16, testBit_setBits16, testBit_clearBits16,
      testBit_clearBits16, testBit_MC_mask, testBit_MC_mask,
      show TACLR.testBit 4 = false by decide, show TACLR.testBit 5 = false by decide,
      show Nat.testBit 0xFFFF 4 = true by decide, show Nat.testBit 0xFFFF 5 = true by decide]
    simp
  have hclr : (CCR0ISR P1IN s).debounceTimerCleared := by
    unfold State.debounceTimerCleared
    rw [hT, and_TACLR_ne_zero_iff, testBit_setBits16, show TACLR.testBit 2 = true by decide]
    simp
  have hen : (CCR0ISR P1IN s).edgeInterruptEnabled := by
    unfold State.edgeInterruptEnabled
    rw [hE, and_BIT4_ne_zero_iff]
    exact setBIT4_bit4 _
  have hflag : ¬ (CCR0ISR P1IN s).edgeFlagPending := by
    unfold State.edgeFlagPending
    rw [hF, and_BIT4_ne_zero_iff, clearBIT4_bit4]
    simp
  refine ⟨hB, ?_, hstop, hclr, hen, hflag, hen, hflag, hstop⟩
  unfold State.pendingPress
  rw [hB]
  by_cases h : P1IN &&& BIT4 = 0 <;> simp [h]

/-! ## C11: one press per debounce window -/

theorem CCR0ISR_pendingPress (P1IN : Nat) (s : State) :
    (CCR0ISR P1IN s).pendingPress = (if P1IN &&& BIT4 = 0 then true else s.pendingPress) := by
  unfold State.pendingPress
  rw [(CCR0ISR_registers P1IN s).2.2.2]
  by_cases h : P1IN &&& BIT4 = 0 <;> simp [h]

theorem CCR0ISR_armed (P1IN : Nat) (s : State) : (CCR0ISR P1IN s).guardArmed := by
  obtain ⟨hT, hF, hE, _⟩ := CCR0ISR_registers P1IN s
  refine ⟨?_, ?_, ?_⟩
  · unfold State.edgeInterruptEnabled
    rw [hE, and_BIT4_ne_zero_iff]
    exact setBIT4_bit4 _
  · unfold State.edgeFlagPending
    rw [hF, and_BIT4_ne_zero_iff, clearBIT4_bit4]
    simp
  · unfold State.debounceTimerStopped
    rw [hT, and_MC_eq_zero_iff, testBit_setBits16, testBit_setBits16, testBit_clearBits16,
      testBit_clearBits16, testBit_MC_mask, testBit_MC_mask,
      show TACLR.testBit 4 = false by decide, show TACLR.testBit 5 = false by decide,
      show Nat.testBit 0xFFFF 4 = true by decide, show Nat.testBit 0xFFFF 5 = true by decide]
    simp

theorem testBit_BIT4 (i : Nat) : BIT4.testBit i = decide (4 = i) := by
  have h : BIT4 = 2 ^ 4 := by decide
  rw [h, Nat.testBit_two_pow]

theorem testBit_MC__UP (i : Nat) : MC__UP.testBit i = decide (4 = i) := by
  have h : MC__UP = 2 ^ 4 := by decide
  rw [h, Nat.testBit_two_pow]

theorem clear_set_BIT4 (x : Nat) : clearBits8 (setBits8 x BIT4) BIT4 = clearBits8 x BIT4 := by
  apply Nat.eq_of_testBit_eq
  intro i
  rw [testBit_clearBits8, testBit_clearBits8, testBit_setBits8, testBit_BIT4]
  by_cases h : 4 = i
  · subst h
    rw [show Nat.testBit 0xFFFF 4 = true by decide]
    simp
  · simp only [h, decide_False, Bool.or_false, Bool.xor_false]
    cases decide (i < 8) <;> simp

theorem start_timer_running (r : Nat) (h : r &&& (MC0 ||| MC1) = 0) :
    setBits16 r MC__UP &&& (MC0 ||| MC1) = MC__UP := by
  obtain ⟨h4, h5⟩ := (and_MC_eq_zero_iff r).1 h
  apply Nat.eq_of_testBit_eq
  intro i
  rw [Nat.testBit_and, testBit_setBits16, testBit_MC_mask, testBit_MC__UP]
  by_cases e4 : i = 4
  · subst e4; simp
  · by_cases e5 : i = 5
    · subst e5; simp [h5]
    · have : ¬ (4 = i) := fun h => e4 h.symm
      simp [e4, e5, this]

theorem fallingEdge_accepted (s : State) (hE : s.edgeInterruptEnabled) :
    fallingEdge s =
      { s with
          TA2CTL := setBits16 s.TA2CTL MC__UP
          P1IFG := clearBits8 (setBits8 s.P1IFG BIT4) BIT4
          P1IE := clearBits8 s.P1IE BIT4 } := by
  have hflag : setBits8 s.P1IFG BIT4 &&& BIT4 ≠ 0 :=
    (and_BIT4_ne_zero_iff _).2 (setBIT4_bit4 _)
  unfold State.edgeInterruptEnabled at hE
  unfold fallingEdge P1ISR
  simp only [hE, hflag, ne_eq, not_false_eq_true, if_true]

theorem fallingEdge_masked (t : State) (hE : ¬ t.edgeInterruptEnabled) :
    fallingEdge t = { t with P1IFG := setBits8 t.P1IFG BIT4 } := by
  unfold State.edgeInterruptEnabled at hE
  unfold fallingEdge
  simp only [hE, if_false]

theorem run_append (s : State) (xs ys : List Event) :
    run s (xs ++ ys) = run (run s xs) ys := by
  unfold run
  rw [List.foldl_append]

theorem run_cons (s : State) (e : Event) (rest : List Event) :
    run s (e :: rest) = run (step s e) rest := rfl

theorem pressCount_append (xs ys : List Event) (s : State) :
    pressCount s (xs ++ ys) = pressCount s xs + pressCount (run s xs) ys := by
  induction xs generalizing s with
  | nil => simp [pressCount, run]
  | cons e rest ih =>
    rw [List.cons_append, pressCount, pressCount, ih, run_cons, Nat.add_assoc]

/-- While the edge interrupt is disabled, any number of further edges leaves
every field but the latch `P1IFG` as it is, and the latch differs at most in
bit 4. -/
theorem masked_edges (n : Nat) (t : State) (hE : ¬ t.edgeInterruptEnabled) :
    run t (List.replicate n Event.edge)
        = { t with P1IFG := (run t (List.replicate n Event.edge)).P1IFG } ∧
    clearBits8 (run t (List.replicate n Event.edge)).P1IFG BIT4 = clearBits8 t.P1IFG BIT4 ∧
    pressCount t (List.replicate n Event.edge) = 0 := by
  induction n generalizing t with
  | zero => exact ⟨rfl, rfl, rfl⟩
  | succ k ih =>
    have hstep : step t Event.edge = { t with P1IFG := setBits8 t.P1IFG BIT4 } :=
      fallingEdge_masked t hE
    have hE2 : ¬ (step t Event.edge).edgeInterruptEnabled := by
      rw [hstep]; exact hE
    obtain ⟨h1, h2, h3⟩ := ih (step t Event.edge) hE2
    rw [List.replicate_succ, run_cons]
    refine ⟨?_, ?_, ?_⟩
    · rw [h1, hstep]
    · rw [h2, hstep]; exact clear_set_BIT4 _
    · rw [pressCount, h3, hstep]
      simp [State.pendingPress]

theorem CCR0ISR_ignores_latch (P1IN : Nat) (t : State) (x : Nat)
    (h : clearBits8 x BIT4 = clearBits8 t.P1IFG BIT4) :
    CCR0ISR P1IN { t with P1IFG := x } = CCR0ISR P1IN t := by
  unfold CCR0ISR
  by_cases hp : P1IN &&& BIT4 = 0 <;> simp [hp, h]

/-- C11: from every state whose guard is Armed and whose PendingPress is
clear, for every number k+1 of falling edges before the debounce timer
expires and every port level at the expiry: the first edge starts the timer
and disables the edge interrupt; each later edge finds the interrupt
disabled, `P1ISR` is not entered, and the state keeps every field it had
after the first edge (the port only latches the flag `P1IFG`, which the expiry
clears); no edge sets PendingPress; the state after the expiry is the one a
single edge would have given; PendingPress goes from clear to set exactly once
when the pin is still low at the expiry and never when it is released; the
guard is Armed again. -/
theorem C11_one_press_per_window (s : State) (k P1IN : Nat)
    (hA : s.guardArmed) (hP : s.pendingPress = false) :
    (fallingEdge s).debounceTimerRunning ∧
    ¬ (fallingEdge s).edgeInterruptEnabled ∧
    (∀ j, j ≤ k →
      run s (List.replicate (j + 1) Event.edge)
        = { fallingEdge s with P1IFG := (run s (List.replicate (j + 1) Event.edge)).P1IFG }) ∧
    (run s (List.replicate (k + 1) Event.edge)).pendingPress = false ∧
    run s (List.replicate (k + 1) Event.edge ++ [Event.debounce P1IN])
      = CCR0ISR P1IN (fallingEdge s) ∧
    (run s (List.replicate (k + 1) Event.edge ++ [Event.debounce P1IN])).pendingPress
      = decide (P1IN &&& BIT4 = 0) ∧
    pressCount s (List.replicate (k + 1) Event.edge ++ [Event.debounce P1IN])
      = (if P1IN &&& BIT4 = 0 then 1 else 0) ∧
    (run s (List.replicate (k + 1) Event.edge ++ [Event.debounce P1IN])).guardArmed := by
  obtain ⟨hE, _, hStop⟩ := hA
  have hfirst := fallingEdge_accepted s hE
  have hrun : (fallingEdge s).debounceTimerRunning := by
    rw [hfirst]
    exact start_timer_running _ hStop
  have hdis : ¬ (fallingEdge s).edgeInterruptEnabled := by
    rw [hfirst]
    unfold State.edgeInterruptEnabled
    rw [and_BIT4_ne_zero_iff]
    show ¬ ((clearBits8 s.P1IE BIT4).testBit 4 = true)
    rw [clearBIT4_bit4]
    simp
  have hbtn : (fallingEdge s).button_pressed = s.button_pressed := by rw [hfirst]
  have hpf : (fallingEdge s).pendingPress = false := by
    unfold State.pendingPress; rw [hbtn]; exact hP
  have hedges : ∀ j, run s (List.replicate (j + 1) Event.edge)
      = run (fallingEdge s) (List.replicate j Event.edge) := fun j => by
    rw [List.replicate_succ, run_cons]; rfl
  have hlater : ∀ j, run s (List.replicate (j + 1) Event.edge)
      = { fallingEdge s with P1IFG := (run s (List.replicate (j + 1) Event.edge)).P1IFG } := by
    intro j
    rw [hedges j]
    exact (masked_edges j (fallingEdge s) hdis).1
  have hnone : (run s (List.replicate (k + 1) Event.edge)).pendingPress = false := by
    rw [hlater k]; exact hpf
  have hfinal : run s (List.replicate (k + 1) Event.edge ++ [Event.debounce P1IN])
      = CCR0ISR P1IN (fallingEdge s) := by
    rw [run_append, hlater k]
    show CCR0ISR P1IN _ = _
    apply CCR0ISR_ignores_latch
    rw [hedges k]
    exact (masked_edges k (fallingEdge s) hdis).2.1
  have hpress : (CCR0ISR P1IN (fallingEdge s)).pendingPress = decide (P1IN &&& BIT4 = 0) := by
    have h10 := (CCR0ISR_pendingPress P1IN (fallingEdge s))
    rw [h10, hpf]
    by_cases h : P1IN &&& BIT4 = 0 <;> simp [h]
  refine ⟨hrun, hdis, fun j _ => hlater j, hnone, hfinal, ?_, ?_, ?_⟩
  · rw [hfinal]; exact hpress
  · rw [pressCount_append]
    have hfirstCount : pressCount s (List.replicate (k + 1) Event.edge) = 0 := by
      rw [List.replicate_succ, pressCount]
      have : step s Event.edge = fallingEdge s := rfl
      rw [this, hpf, (masked_edges k (fallingEdge s) hdis).2.2]
      simp
    rw [hfirstCount, pressCount, pressCount, hnone]
    have : step (run s (List.replicate (k + 1) Event.edge)) (Event.debounce P1IN)
        = CCR0ISR P1IN (fallingEdge s) := by
      rw [← hfinal, run_append]; rfl
    rw [this, hpress]
    by_cases h : P1IN &&& BIT4 = 0 <;> simp [h]
  · rw [hfinal]
    exact (CCR0ISR_armed P1IN (fallingEdge s))

/-- C11 at power-up with four edges: once with the button still held at the
expiry (port level 0), once with it released (P1.4 reads high). -/
theorem C11_one_press_per_window_witness :
    powerUp.guardArmed ∧ powerUp.pendingPress = false ∧
    pressCount powerUp (List.replicate (3 + 1) Event.edge ++ [Event.debounce 0]) = 1 ∧
    pressCount powerUp (List.replicate (3 + 1) Event.edge ++ [Event.debounce BIT4]) = 0 ∧
    run powerUp (List.replicate (3 + 1) Event.edge ++ [Event.debounce 0])
      = CCR0ISR 0 (fallingEdge powerUp) :=
  ⟨by decide, by decide,
   (C11_one_press_per_window powerUp 3 0 (by decide) (by decide)).2.2.2.2.2.2.1,
   (C11_one_press_per_window powerUp 3 BIT4 (by decide) (by decide)).2.2.2.2.2.2.1,
   (C11_one_press_per_window powerUp 3 0 (by decide) (by decide)).2.2.2.2.1⟩

/-! ## C12: display multiplexing -/

theorem checkStep_activeDisplay (s : State) : (checkStep s).activeDisplay = s.activeDisplay := by
  unfold checkStep; split <;> [split; skip] <;> rfl

theorem pressStep_activeDisplay (s : State) : (pressStep s).activeDisplay = s.activeDisplay := by
  unfold pressStep; split <;> [split; skip] <;> rfl

theorem step_activeDisplay (s : State) (e : Event) (h : e.isTick = false) :
    (step s e).activeDisplay = s.activeDisplay := by
  cases e with
  | loop =>
    show (pressStep (checkStep s)).activeDisplay = _
    rw [pressStep_activeDisplay, checkStep_activeDisplay]
  | adc iv m0 m1 =>
    simp only [step, ADC12ISR]
    split <;> [skip; split] <;> rfl
  | edge =>
    simp only [step, fallingEdge, P1ISR]
    split <;> [split; skip] <;> rfl
  | debounce p =>
    simp only [step, CCR0ISR]
    by_cases hp : p &&& BIT4 = 0 <;> simp [hp]
  | tick => exact absurd h (by decide)

theorem run_activeDisplay (evs : List Event) (s : State)
    (h : ∀ e ∈ evs, e.isTick = false) : (run s evs).activeDisplay = s.activeDisplay := by
  induction evs generalizing s with
  | nil => rfl
  | cons e rest ih =>
    rw [run_cons, ih (step s e) (fun x hx => h x (List.mem_cons_of_mem e hx)),
      step_activeDisplay s e (h e (List.mem_cons_self e rest))]

/-- One refresh tick, whatever the state: the selected panel is enabled, the
other disabled, the digit of the selected panel is on the segment lines and
the selector has moved to the other panel. -/
theorem TAIEISR_effect (s : State) :
    (TAIEISR s).panelEnabled s.activeDisplay = true ∧
    (TAIEISR s).panelEnabled (otherDisplay s.activeDisplay) = false ∧
    (TAIEISR s).segments = panelDigit s.activeDisplay s ∧
    (TAIEISR s).activeDisplay = otherDisplay s.activeDisplay := by
  unfold TAIEISR
  cases h : s.activeDisplay <;> exact ⟨rfl, rfl, rfl, rfl⟩

theorem otherDisplay_ne (d : active_display_t) : otherDisplay d ≠ d := by
  cases d <;> decide

theorem otherDisplay_otherDisplay (d : active_display_t) : otherDisplay (otherDisplay d) = d := by
  cases d <;> rfl

/-- C12: for every state, one refresh tick enables the selected panel and
disables the other (exactly one panel is on), writes the digit of
CurrentReading assigned to the enabled panel (panel 1: high digit, panel 2:
low digit) and switches the selector.  Hence for two consecutive ticks, with
any events other than ticks in between: the second tick enables the panel the
first one disabled and disables the one it enabled, writes the value that
panel's digit has at the second tick, and the selector is back at its
starting value. -/
theorem C12_display_multiplex (s : State) (mid : List Event)
    (hmid : ∀ e ∈ mid, e.isTick = false) :
    (TAIEISR s).panelEnabled s.activeDisplay = true ∧
    (TAIEISR s).panelEnabled (otherDisplay s.activeDisplay) = false ∧
    (TAIEISR s).display1_on ≠ (TAIEISR s).display2_on ∧
    (TAIEISR s).segments = panelDigit s.activeDisplay s ∧
    panelDigit .DISP1 s = s.curr_cipher_high ∧
    panelDigit .DISP2 s = s.curr_cipher_low ∧
    (TAIEISR s).activeDisplay = otherDisplay s.activeDisplay ∧
    (TAIEISR s).activeDisplay ≠ s.activeDisplay ∧
    (TAIEISR (run (TAIEISR s) mid)).panelEnabled (otherDisplay s.activeDisplay) = true ∧
    (TAIEISR (run (TAIEISR s) mid)).panelEnabled s.activeDisplay = false ∧
    (TAIEISR (run (TAIEISR s) mid)).segments
      = panelDigit (otherDisplay s.activeDisplay) (run (TAIEISR s) mid) ∧
    (TAIEISR (run (TAIEISR s) mid)).activeDisplay = s.activeDisplay := by
  obtain ⟨a1, a2, a3, a4⟩ := TAIEISR_effect s
  have hsel : (run (TAIEISR s) mid).activeDisplay = otherDisplay s.activeDisplay := by
    rw [run_activeDisplay mid _ hmid, a4]
  obtain ⟨b1, b2, b3, b4⟩ := TAIEISR_effect (run (TAIEISR s) mid)
  rw [hsel] at b1 b2 b3 b4
  rw [otherDisplay_otherDisplay] at b2 b4
  refine ⟨a1, a2, ?_, a3, rfl, rfl, a4, ?_, b1, b2, b3, b4⟩
  · intro hEq
    cases hd : s.activeDisplay <;> rw [hd] at a1 a2 <;>
      simp only [State.panelEnabled, otherDisplay] at a1 a2 <;>
      rw [a1, a2] at hEq <;> exact absurd hEq (by decide)
  · rw [a4]; exact otherDisplay_ne _

/-- C12 from power-up (panel 1 selected), with both digits sampled between
the two ticks. -/
theorem C12_display_multiplex_witness :
    (∀ e ∈ [Event.adc 6 0xC00 0, Event.adc 8 0 0x400, Event.loop], e.isTick = false) ∧
    (TAIEISR powerUp).activeDisplay = otherDisplay powerUp.activeDisplay ∧
    (TAIEISR (run (TAIEISR powerUp)
        [Event.adc 6 0xC00 0, Event.adc 8 0 0x400, Event.loop])).segments
      = panelDigit (otherDisplay powerUp.activeDisplay)
          (run (TAIEISR powerUp) [Event.adc 6 0xC00 0, Event.adc 8 0 0x400, Event.loop]) ∧
    (TAIEISR (run (TAIEISR powerUp)
        [Event.adc 6 0xC00 0, Event.adc 8 0 0x400, Event.loop])).activeDisplay
      = powerUp.activeDisplay :=
  ⟨by decide,
   (C12_display_multiplex powerUp [Event.adc 6 0xC00 0, Event.adc 8 0 0x400, Event.loop]
     (by decide)).2.2.2.2.2.2.1,
   (C12_display_multiplex powerUp [Event.adc 6 0xC00 0, Event.adc 8 0 0x400, Event.loop]
     (by decide)).2.2.2.2.2.2.2.2.2.2.1,
   (C12_display_multiplex powerUp [Event.adc 6 0xC00 0, Event.adc 8 0 0x400, Event.loop]
     (by decide)).2.2.2.2.2.2.2.2.2.2.2⟩

/-! ## C13: repeated evaluations of one reading -/

theorem checkStep_unlocked_of_settled (t : State) (h : t.statusSettled) :
    ((checkStep t).unlocked = 1 ↔ t.unlocked = 1) ∧ (checkStep t).statusSettled := by
  by_cases hc : t.check = 1 ∧ t.waiting_new_cipher = 0
  · obtain ⟨h1, _⟩ := checkStep_compare t hc.1 hc.2
    have hs := h hc.2
    have hr := checkStep_reading t
    have hci := checkStep_cipher t
    have hw := checkStep_waiting t
    by_cases hm : t.real_cipher_low = t.curr_cipher_low ∧
        t.real_cipher_high = t.curr_cipher_high
    · rw [if_pos hm] at h1
      refine ⟨⟨fun _ => hs.2 hm, fun _ => h1⟩, ?_⟩
      intro _
      rw [hr.1, hr.2, hci.1, hci.2]
      exact ⟨fun _ => hm, fun _ => h1⟩
    · rw [if_neg hm] at h1
      have hne : (checkStep t).unlocked ≠ 1 := by rw [h1]; decide
      refine ⟨⟨fun hh => absurd hh hne, fun hh => absurd (hs.1 hh) hm⟩, ?_⟩
      intro _
      rw [hr.1, hr.2, hci.1, hci.2]
      exact ⟨fun hh => absurd hh hne, fun hh => absurd hh hm⟩
  · rw [checkStep_skip t hc]
    exact ⟨Iff.rfl, h⟩

theorem pressStep_settled (t : State) (h : t.statusSettled) : (pressStep t).statusSettled := by
  unfold pressStep
  by_cases hc : t.button_pressed = 1 ∧ t.unlocked = 1
  · rw [if_pos hc]
    by_cases hw : t.waiting_new_cipher = 0
    · simp only [hw, if_true]
      intro hcontra
      exact absurd hcontra (show (1 : Nat) ≠ 0 by decide)
    · simp only [hw, if_false]
      intro _
      exact ⟨fun _ => ⟨rfl, rfl⟩, fun _ => hc.2⟩
  · rw [if_neg hc]
    exact h

theorem loopIteration_settled (t : State) (h : t.statusSettled) :
    (loopIteration t).statusSettled ∧ (loopIteration t).lockStatus = t.lockStatus := by
  obtain ⟨h1, h2⟩ := checkStep_unlocked_of_settled t h
  refine ⟨pressStep_settled _ h2, ?_⟩
  unfold loopIteration State.lockStatus
  rw [pressStep_unlocked]
  by_cases hu : t.unlocked = 1
  · rw [if_pos hu, if_pos (h1.2 hu)]
  · rw [if_neg hu, if_neg (fun hh => hu (h1.1 hh))]

/-- After a pass of the loop that started with the reading dirty the status is
settled, whatever the state before. -/
theorem loopIteration_settles (s : State) (hd : s.check = 1) :
    (loopIteration s).statusSettled := by
  unfold loopIteration
  apply pressStep_settled
  by_cases hw : s.waiting_new_cipher = 0
  · obtain ⟨h1, _⟩ := checkStep_compare s hd hw
    have hr := checkStep_reading s
    have hci := checkStep_cipher s
    intro _
    rw [hr.1, hr.2, hci.1, hci.2, h1]
    by_cases hm : s.real_cipher_low = s.curr_cipher_low ∧
        s.real_cipher_high = s.curr_cipher_high
    · rw [if_pos hm]; exact ⟨fun _ => hm, fun _ => rfl⟩
    · rw [if_neg hm]
      exact ⟨fun hh => absurd hh (show (0 : Nat) ≠ 1 by decide), fun hh => absurd hh hm⟩
  · intro hcontra
    rw [checkStep_waiting] at hcontra
    exact absurd hcontra hw

theorem settled_of_frame (t u : State) (hu : u.unlocked = t.unlocked)
    (hw : u.waiting_new_cipher = t.waiting_new_cipher) (hc : u.cipher = t.cipher)
    (hr : u.reading = t.reading) (h : t.statusSettled) :
    u.statusSettled ∧ u.lockStatus = t.lockStatus := by
  simp only [State.cipher, State.reading, Prod.mk.injEq] at hc hr
  refine ⟨?_, lockStatus_congr hu⟩
  unfold State.statusSettled
  rw [hu, hw, hc.1, hc.2, hr.1, hr.2]
  exact h

theorem step_settled (t : State) (e : Event) (h : t.statusSettled)
    (hr : (step t e).reading = t.reading) :
    (step t e).statusSettled ∧ (step t e).lockStatus = t.lockStatus := by
  cases e with
  | loop => exact loopIteration_settled t h
  | adc iv m0 m1 =>
    apply settled_of_frame _ _ _ _ _ hr h
    · simp only [step, ADC12ISR]; split <;> [skip; split] <;> rfl
    · simp only [step, ADC12ISR]; split <;> [skip; split] <;> rfl
    · simp only [step, ADC12ISR]; split <;> [skip; split] <;> rfl
  | edge =>
    apply settled_of_frame _ _ _ _ _ hr h
    · simp only [step, fallingEdge, P1ISR]; split <;> [split; skip] <;> rfl
    · simp only [step, fallingEdge, P1ISR]; split <;> [split; skip] <;> rfl
    · simp only [step, fallingEdge, P1ISR]; split <;> [split; skip] <;> rfl
  | debounce p =>
    obtain ⟨c1, c2, _, _, c5, c6, _, _⟩ := CCR0ISR_frame p t
    apply settled_of_frame _ _ c1 c2 _ hr h
    simp only [step, State.cipher, c5, c6]
  | tick =>
    apply settled_of_frame _ _ _ _ _ hr h
    · simp only [step, TAIEISR]; split <;> rfl
    · simp only [step, TAIEISR]; split <;> rfl
    · simp only [step, TAIEISR]; split <;> rfl

theorem run_settled (evs : List Event) (t : State) (h : t.statusSettled)
    (hr : readingConstant t evs = true) :
    (run t evs).statusSettled ∧ (run t evs).lockStatus = t.lockStatus := by
  induction evs generalizing t with
  | nil => exact ⟨h, rfl⟩
  | cons e rest ih =>
    simp only [readingConstant, Bool.and_eq_true, decide_eq_true_eq] at hr
    obtain ⟨h1, h2⟩ := step_settled t e h hr.1
    obtain ⟨h3, h4⟩ := ih (step t e) h1 hr.2
    rw [run_cons]
    exact ⟨h3, h4.trans h2⟩

/-- C13: from every state in which ReadingDirty is set, once an iteration of
the main loop has handled the dirty reading, every execution in which
CurrentReading keeps the same value (ADC completions that write the same
digits and raise ReadingDirty again, button edges, debounce expiries that
set PendingPress, display ticks and main-loop iterations, in any order and
number) leaves LockStatus as that iteration left it, and so does one more
main-loop iteration after it. -/
theorem C13_status_stable (s : State) (evs : List Event)
    (hd : s.readingDirty = true)
    (hr : readingConstant (loopIteration s) evs = true) :
    (run (loopIteration s) evs).lockStatus = (loopIteration s).lockStatus ∧
    (loopIteration (run (loopIteration s) evs)).lockStatus = (loopIteration s).lockStatus := by
  have h0 := loopIteration_settles s ((readingDirty_iff s).1 hd)
  obtain ⟨h1, h2⟩ := run_settled evs _ h0 hr
  exact ⟨h2, (loopIteration_settled _ h1).2.trans h2⟩

theorem dialledDefault_eq : dialledDefault =
    { real_cipher_low := 3, real_cipher_high := 0, curr_cipher_low := 3, curr_cipher_high := 0,
      check := 1, unlocked := 0, waiting_new_cipher := 0, button_pressed := 0,
      activeDisplay := .DISP1, P2OUT := 0, P1IFG := 0, P1IE := 16, TA2CTL := 256,
      display1_on := true, display2_on := false, segments := 0 } := by
  simp only [dialledDefault, powerUp, run, List.foldl, step, ADC12ISR, scaleDigit_eq]
  decide

/-- C13 with the dials at the default cipher: the lock opens, and two
confirmed presses, repeated samples of the same digits and further iterations
leave it open. -/
theorem C13_status_stable_witness :
    dialledDefault.readingDirty = true ∧
    readingConstant (loopIteration dialledDefault)
      [.debounce 0, .loop, .adc 6 0x6FF 0, .adc 8 0 0xFF, .loop, .edge, .debounce 0, .loop,
       .tick, .adc 6 0x500 0, .loop] = true ∧
    (loopIteration dialledDefault).lockStatus = .Unlocked ∧
    ((run (loopIteration dialledDefault)
      [.debounce 0, .loop, .adc 6 0x6FF 0, .adc 8 0 0xFF, .loop, .edge, .debounce 0, .loop,
       .tick, .adc 6 0x500 0, .loop]).lockStatus = (loopIteration dialledDefault).lockStatus ∧
    (loopIteration (run (loopIteration dialledDefault)
      [.debounce 0, .loop, .adc 6 0x6FF 0, .adc 8 0 0xFF, .loop, .edge, .debounce 0, .loop,
       .tick, .adc 6 0x500 0, .loop])).lockStatus = (loopIteration dialledDefault).lockStatus) :=
  ⟨by rw [dialledDefault_eq]; decide,
   by rw [dialledDefault_eq]
      simp only [readingConstant, step, ADC12ISR, scaleDigit_eq]
      decide,
   by rw [dialledDefault_eq]; decide,
   C13_status_stable dialledDefault _
     (by rw [dialledDefault_eq]; decide)
     (by rw [dialledDefault_eq]
         simp only [readingConstant, step, ADC12ISR, scaleDigit_eq]
         decide)⟩

/-! ## C14: power-up -/

/-- A pass of the loop that starts Idle with the reading dirty: the outcome of
the comparison, in `unlocked` and on P2.4. -/
theorem loopIteration_eval (s : State) (hc : s.check = 1) (hw : s.waiting_new_cipher = 0) :
    (loopIteration s).unlocked =
        (if s.real_cipher_low = s.curr_cipher_low ∧ s.real_cipher_high = s.curr_cipher_high
          then 1 else 0) ∧
    (loopIteration s).P2OUT.testBit 4 =
        decide (s.real_cipher_low = s.curr_cipher_low ∧
          s.real_cipher_high = s.curr_cipher_high) := by
  obtain ⟨h1, h2⟩ := checkStep_compare s hc hw
  unfold loopIteration
  rw [pressStep_unlocked, pressStep_bit4]
  exact ⟨h1, h2⟩

theorem initState_first_pass (a b c d : Nat) :
    loopIteration (initState a b c d) =
      { initState a b c d with
          check := 0
          unlocked := 0
          P2OUT := clearBits8 (initState a b c d).P2OUT BIT4 } := by
  simp [loopIteration, checkStep, pressStep, initState]

/-- C14: at power-up, whatever the registers held before the set-up code,
LockStatus is Locked, ProgrammingState is Idle, the Cipher is (low 3, high 0),
CurrentReading is (0,0) and ReadingDirty is set; the
first main-loop iteration yields Locked with the unlock indicator off; after
the sampler has written CurrentReading = (3,0), from any raw samples that
scale to 3 and 0, the next iteration yields Unlocked with the unlock indicator
on. -/
theorem C14_power_up (P2OUT0 P1IFG0 P1IE0 segments0 m0 m1 : Nat)
    (h0 : scaleDigit m0 = 3) (h1 : scaleDigit m1 = 0) :
    (initState P2OUT0 P1IFG0 P1IE0 segments0).lockStatus = .Locked ∧
    (initState P2OUT0 P1IFG0 P1IE0 segments0).programmingState = .Idle ∧
    (initState P2OUT0 P1IFG0 P1IE0 segments0).cipher = (3, 0) ∧
    (initState P2OUT0 P1IFG0 P1IE0 segments0).reading = (0, 0) ∧
    (initState P2OUT0 P1IFG0 P1IE0 segments0).readingDirty = true ∧
    (loopIteration (initState P2OUT0 P1IFG0 P1IE0 segments0)).lockStatus = .Locked ∧
    (loopIteration (initState P2OUT0 P1IFG0 P1IE0 segments0)).unlockIndicator = false ∧
    (sampleBoth m0 m1 (loopIteration (initState P2OUT0 P1IFG0 P1IE0 segments0))).reading
      = (3, 0) ∧
    (loopIteration (sampleBoth m0 m1
      (loopIteration (initState P2OUT0 P1IFG0 P1IE0 segments0)))).lockStatus = .Unlocked ∧
    (loopIteration (sampleBoth m0 m1
      (loopIteration (initState P2OUT0 P1IFG0 P1IE0 segments0)))).unlockIndicator = true := by
  have hfirst := initState_first_pass P2OUT0 P1IFG0 P1IE0 segments0
  have hs := sampleBoth_fields m0 m1 (loopIteration (initState P2OUT0 P1IFG0 P1IE0 segments0))
  rw [hfirst] at hs
  obtain ⟨e1, e2⟩ := loopIteration_eval
    (sampleBoth m0 m1 (loopIteration (initState P2OUT0 P1IFG0 P1IE0 segments0)))
    (by rw [hfirst]; rfl) (by rw [hfirst]; rfl)
  have hmatch : (sampleBoth m0 m1
        (loopIteration (initState P2OUT0 P1IFG0 P1IE0 segments0))).real_cipher_low
      = (sampleBoth m0 m1
        (loopIteration (initState P2OUT0 P1IFG0 P1IE0 segments0))).curr_cipher_low ∧
      (sampleBoth m0 m1
        (loopIteration (initState P2OUT0 P1IFG0 P1IE0 segments0))).real_cipher_high
      = (sampleBoth m0 m1
        (loopIteration (initState P2OUT0 P1IFG0 P1IE0 segments0))).curr_cipher_high := by
    rw [hfirst, sampleBoth_fields]
    exact ⟨h0.symm, h1.symm⟩
  rw [if_pos hmatch] at e1
  rw [decide_eq_true hmatch] at e2
  refine ⟨rfl, rfl, rfl, rfl, rfl, ?_, ?_, ?_, ?_, ?_⟩
  · rw [hfirst]; rfl
  · rw [hfirst, unlockIndicator_eq]; exact clearBIT4_bit4 _
  · rw [hfirst, sampleBoth_fields]; simp [State.reading, h0, h1]
  · exact (lockStatus_unlocked_iff _).2 e1
  · rw [unlockIndicator_eq]; exact e2

/-- C14, scenarios 1 and 2 of the specification, with the raw samples 0x600
and 0. -/
theorem C14_power_up_witness :
    scaleDigit 0x600 = 3 ∧ scaleDigit 0 = 0 ∧
    (loopIteration (initState 0 0 0 0)).lockStatus = .Locked ∧
    (loopIteration (initState 0 0 0 0)).unlockIndicator = false ∧
    (loopIteration (sampleBoth 0x600 0 (loopIteration (initState 0 0 0 0)))).lockStatus
      = .Unlocked ∧
    (loopIteration (sampleBoth 0x600 0 (loopIteration (initState 0 0 0 0)))).unlockIndicator
      = true :=
  ⟨by rw [scaleDigit_eq]; decide, by rw [scaleDigit_eq]; decide,
   (C14_power_up 0 0 0 0 0x600 0 (by rw [scaleDigit_eq]; decide)
     (by rw [scaleDigit_eq]; decide)).2.2.2.2.2.1,
   (C14_power_up 0 0 0 0 0x600 0 (by rw [scaleDigit_eq]; decide)
     (by rw [scaleDigit_eq]; decide)).2.2.2.2.2.2.1,
   (C14_power_up 0 0 0 0 0x600 0 (by rw [scaleDigit_eq]; decide)
     (by rw [scaleDigit_eq]; decide)).2.2.2.2.2.2.2.2.1,
   (C14_power_up 0 0 0 0 0x600 0 (by rw [scaleDigit_eq]; decide)
     (by rw [scaleDigit_eq]; decide)).2.2.2.2.2.2.2.2.2⟩

/-! ## C15: the torn read -/

/-- C15: from every Idle state whose stale high digit equals the Cipher's
high digit while its low digit does not, for every sampling cycle whose new
low digit equals the Cipher's low digit and whose new high digit does not:
neither the previously sampled pair nor the newly sampled pair equals the
Cipher, but a main-loop iteration that runs between the low-digit write and the
high-digit write evaluates the pair (fresh low, stale high) and sets LockStatus
to Unlocked with the unlock indicator on. -/
theorem C15_torn_read (s : State) (m0 m1 : Nat)
    (hI : s.programmingState = .Idle)
    (hold : s.curr_cipher_low ≠ s.real_cipher_low)
    (hstale : s.curr_cipher_high = s.real_cipher_high)
    (hlow : scaleDigit m0 = s.real_cipher_low)
    (hhigh : scaleDigit m1 ≠ s.real_cipher_high) :
    s.reading ≠ s.cipher ∧
    (sampleBoth m0 m1 s).reading ≠ s.cipher ∧
    (ADC12ISR 6 m0 m1 s).reading = (scaleDigit m0, s.curr_cipher_high) ∧
    (loopIteration (ADC12ISR 6 m0 m1 s)).lockStatus = .Unlocked ∧
    (loopIteration (ADC12ISR 6 m0 m1 s)).unlockIndicator = true ∧
    (ADC12ISR 8 m0 m1 (loopIteration (ADC12ISR 6 m0 m1 s))).reading
      = (scaleDigit m0, scaleDigit m1) := by
  have hw : s.waiting_new_cipher = 0 := (programmingState_idle_iff s).1 hI
  have hmid : ADC12ISR 6 m0 m1 s = { s with curr_cipher_low := scaleDigit m0, check := 1 } := by
    simp [ADC12ISR]
  have hmatch : (ADC12ISR 6 m0 m1 s).real_cipher_low = (ADC12ISR 6 m0 m1 s).curr_cipher_low ∧
      (ADC12ISR 6 m0 m1 s).real_cipher_high = (ADC12ISR 6 m0 m1 s).curr_cipher_high := by
    rw [hmid]; exact ⟨hlow.symm, hstale.symm⟩
  obtain ⟨e1, e2⟩ := loopIteration_eval (ADC12ISR 6 m0 m1 s) (by rw [hmid]) (by rw [hmid]; exact hw)
  rw [if_pos hmatch] at e1
  rw [decide_eq_true hmatch] at e2
  refine ⟨?_, ?_, ?_, (lockStatus_unlocked_iff _).2 e1, ?_, ?_⟩
  · intro h
    simp only [State.reading, State.cipher, Prod.mk.injEq] at h
    exact hold h.1
  · intro h
    rw [sampleBoth_fields] at h
    simp only [State.reading, State.cipher, Prod.mk.injEq] at h
    exact hhigh h.2
  · rw [hmid]; rfl
  · rw [unlockIndicator_eq]; exact e2
  · have hr := pressStep_reading (checkStep (ADC12ISR 6 m0 m1 s))
    have hc := checkStep_reading (ADC12ISR 6 m0 m1 s)
    have hl : (loopIteration (ADC12ISR 6 m0 m1 s)).curr_cipher_low = scaleDigit m0 := by
      unfold loopIteration; rw [hr.1, hc.1, hmid]
    have h8 : ∀ t : State, (ADC12ISR 8 m0 m1 t).reading = (t.curr_cipher_low, scaleDigit m1) :=
      fun t => by simp [ADC12ISR, State.reading]
    rw [h8, hl]

theorem dialledFourZero_eq : dialledFourZero =
    { real_cipher_low := 3, real_cipher_high := 0, curr_cipher_low := 4, curr_cipher_high := 0,
      check := 0, unlocked := 0, waiting_new_cipher := 0, button_pressed := 0,
      activeDisplay := .DISP1, P2OUT := 0, P1IFG := 0, P1IE := 16, TA2CTL := 256,
      display1_on := true, display2_on := false, segments := 0 } := by
  simp only [dialledFourZero, powerUp, run, List.foldl, step, ADC12ISR, scaleDigit_eq]
  decide

/-- C15 with the values of the claim: Cipher (3,0), old sample (low 4,
high 0), new sample (low 3, high 1). -/
theorem C15_torn_read_witness :
    dialledFourZero.cipher = (3, 0) ∧
    dialledFourZero.reading = (4, 0) ∧
    dialledFourZero.lockStatus = .Locked ∧
    dialledFourZero.programmingState = .Idle ∧
    dialledFourZero.curr_cipher_low ≠ dialledFourZero.real_cipher_low ∧
    dialledFourZero.curr_cipher_high = dialledFourZero.real_cipher_high ∧
    scaleDigit 0x600 = dialledFourZero.real_cipher_low ∧
    scaleDigit 0x200 ≠ dialledFourZero.real_cipher_high ∧
    (dialledFourZero.reading ≠ dialledFourZero.cipher ∧
    (sampleBoth 0x600 0x200 dialledFourZero).reading ≠ dialledFourZero.cipher ∧
    (ADC12ISR 6 0x600 0x200 dialledFourZero).reading
      = (scaleDigit 0x600, dialledFourZero.curr_cipher_high) ∧
    (loopIteration (ADC12ISR 6 0x600 0x200 dialledFourZero)).lockStatus = .Unlocked ∧
    (loopIteration (ADC12ISR 6 0x600 0x200 dialledFourZero)).unlockIndicator = true ∧
    (ADC12ISR 8 0x600 0x200 (loopIteration (ADC12ISR 6 0x600 0x200 dialledFourZero))).reading
      = (scaleDigit 0x600, scaleDigit 0x200)) :=
  ⟨by rw [dialledFourZero_eq]; decide,
   by rw [dialledFourZero_eq]; decide,
   by rw [dialledFourZero_eq]; decide,
   by rw [dialledFourZero_eq]; decide,
   by rw [dialledFourZero_eq]; decide,
   by rw [dialledFourZero_eq],
   by rw [dialledFourZero_eq, scaleDigit_eq]; decide,
   by rw [dialledFourZero_eq, scaleDigit_eq]; decide,
   C15_torn_read dialledFourZero 0x600 0x200
     (by rw [dialledFourZero_eq]; decide)
     (by rw [dialledFourZero_eq]; decide)
     (by rw [dialledFourZero_eq])
     (by rw [dialledFourZero_eq, scaleDigit_eq]; decide)
     (by rw [dialledFourZero_eq, scaleDigit_eq]; decide)⟩

/-! ## C16: the reading is handled before the press -/

/-- C16: from every Idle state with both ReadingDirty and PendingPress set,
whatever the LockStatus before, the press is judged against the LockStatus
computed in the same iteration: if CurrentReading equals the Cipher the
iteration ends Unlocked and AwaitingConfirm (so from Locked), otherwise it
ends Locked and Idle (so from Unlocked); in both cases PendingPress is cleared
and the Cipher is unchanged. -/
theorem C16_reading_before_press (s : State)
    (hI : s.programmingState = .Idle)
    (hD : s.readingDirty = true)
    (hP : s.pendingPress = true) :
    (loopIteration s).lockStatus =
      (if s.curr_cipher_low = s.real_cipher_low ∧ s.curr_cipher_high = s.real_cipher_high
        then LockStatus.Unlocked else LockStatus.Locked) ∧
    (loopIteration s).programmingState =
      (if s.curr_cipher_low = s.real_cipher_low ∧ s.curr_cipher_high = s.real_cipher_high
        then ProgrammingState.AwaitingConfirm else ProgrammingState.Idle) ∧
    (loopIteration s).pendingPress = false ∧
    (loopIteration s).cipher = s.cipher := by
  have hw : s.waiting_new_cipher = 0 := (programmingState_idle_iff s).1 hI
  have hc : s.check = 1 := (readingDirty_iff s).1 hD
  have hp : s.button_pressed = 1 := (pendingPress_iff s).1 hP
  obtain ⟨h1, _⟩ := checkStep_compare s hc hw
  have hcw := checkStep_waiting s
  have hcb := checkStep_button s
  have hcc := checkStep_cipher s
  have hpend : (loopIteration s).pendingPress = false := by
    unfold loopIteration State.pendingPress
    rw [pressStep_button]; rfl
  by_cases hm : s.curr_cipher_low = s.real_cipher_low ∧ s.curr_cipher_high = s.real_cipher_high
  · have hm2 : s.real_cipher_low = s.curr_cipher_low ∧
        s.real_cipher_high = s.curr_cipher_high := ⟨hm.1.symm, hm.2.symm⟩
    rw [if_pos hm2] at h1
    have hstep : loopIteration s =
        { checkStep s with
            P2OUT := setBits8 (checkStep s).P2OUT BIT5
            waiting_new_cipher := 1
            button_pressed := 0 } := by
      unfold loopIteration pressStep
      simp [h1, hcw, hcb, hw, hp]
    rw [if_pos hm, if_pos hm]
    refine ⟨?_, ?_, hpend, ?_⟩
    · rw [hstep, lockStatus_unlocked_iff]; exact h1
    · rw [hstep, programmingState_awaiting_iff]; exact (show (1 : Nat) ≠ 0 by decide)
    · rw [hstep]; simp only [State.cipher]; rw [hcc.1, hcc.2]
  · have hm2 : ¬ (s.real_cipher_low = s.curr_cipher_low ∧
        s.real_cipher_high = s.curr_cipher_high) := fun h => hm ⟨h.1.symm, h.2.symm⟩
    rw [if_neg hm2] at h1
    have hstep : loopIteration s = { checkStep s with button_pressed := 0 } := by
      unfold loopIteration
      exact pressStep_locked _ (by rw [h1]; decide)
    rw [if_neg hm, if_neg hm]
    refine ⟨?_, ?_, hpend, ?_⟩
    · rw [hstep, lockStatus_locked_iff]
      show (checkStep s).unlocked ≠ 1
      rw [h1]; decide
    · rw [hstep, programmingState_idle_iff]
      show (checkStep s).waiting_new_cipher = 0
      rw [hcw]; exact hw
    · rw [hstep]; simp only [State.cipher]; rw [hcc.1, hcc.2]

theorem lockedMatchWithPress_eq : lockedMatchWithPress =
    { real_cipher_low := 3, real_cipher_high := 0, curr_cipher_low := 3, curr_cipher_high := 0,
      check := 1, unlocked := 0, waiting_new_cipher := 0, button_pressed := 1,
      activeDisplay := .DISP1, P2OUT := 0, P1IFG := 0, P1IE := 16, TA2CTL := 260,
      display1_on := true, display2_on := false, segments := 0 } := by
  simp only [lockedMatchWithPress, powerUp, run, List.foldl, step, ADC12ISR, scaleDigit_eq]
  decide

theorem unlockedMismatchWithPress_eq : unlockedMismatchWithPress =
    { real_cipher_low := 3, real_cipher_high := 0, curr_cipher_low := 0, curr_cipher_high := 0,
      check := 1, unlocked := 1, waiting_new_cipher := 0, button_pressed := 1,
      activeDisplay := .DISP1, P2OUT := 16, P1IFG := 0, P1IE := 16, TA2CTL := 260,
      display1_on := true, display2_on := false, segments := 0 } := by
  simp only [unlockedMismatchWithPress, powerUp, run, List.foldl, step, ADC12ISR,
    scaleDigit_eq]
  decide

/-- C16 in the two situations of the claim: from Locked with the reading
equal to the Cipher the iteration ends Unlocked and AwaitingConfirm; from
Unlocked with the reading (0,0) against the Cipher (3,0) it ends Locked and
Idle. -/
theorem C16_reading_before_press_witness :
    (lockedMatchWithPress.lockStatus = .Locked ∧
      lockedMatchWithPress.programmingState = .Idle ∧
      lockedMatchWithPress.readingDirty = true ∧
      lockedMatchWithPress.pendingPress = true ∧
      (loopIteration lockedMatchWithPress).lockStatus = .Unlocked ∧
      (loopIteration lockedMatchWithPress).programmingState = .AwaitingConfirm) ∧
    (unlockedMismatchWithPress.lockStatus = .Unlocked ∧
      unlockedMismatchWithPress.programmingState = .Idle ∧
      unlockedMismatchWithPress.readingDirty = true ∧
      unlockedMismatchWithPress.pendingPress = true ∧
      (loopIteration unlockedMismatchWithPress).lockStatus = .Locked ∧
      (loopIteration unlockedMismatchWithPress).programmingState = .Idle ∧
      (loopIteration unlockedMismatchWithPress).pendingPress = false ∧
      (loopIteration unlockedMismatchWithPress).cipher = unlockedMismatchWithPress.cipher) := by
  have hA := C16_reading_before_press lockedMatchWithPress
    (by rw [lockedMatchWithPress_eq]; decide)
    (by rw [lockedMatchWithPress_eq]; decide)
    (by rw [lockedMatchWithPress_eq]; decide)
  have hB := C16_reading_before_press unlockedMismatchWithPress
    (by rw [unlockedMismatchWithPress_eq]; decide)
    (by rw [unlockedMismatchWithPress_eq]; decide)
    (by rw [unlockedMismatchWithPress_eq]; decide)
  have mA : lockedMatchWithPress.curr_cipher_low = lockedMatchWithPress.real_cipher_low ∧
      lockedMatchWithPress.curr_cipher_high = lockedMatchWithPress.real_cipher_high := by
    rw [lockedMatchWithPress_eq]; decide
  have mB : ¬ (unlockedMismatchWithPress.curr_cipher_low
        = unlockedMismatchWithPress.real_cipher_low ∧
      unlockedMismatchWithPress.curr_cipher_high
        = unlockedMismatchWithPress.real_cipher_high) := by
    rw [unlockedMismatchWithPress_eq]; decide
  rw [if_pos mA, if_pos mA] at hA
  rw [if_neg mB, if_neg mB] at hB
  exact ⟨⟨by rw [lockedMatchWithPress_eq]; decide, by rw [lockedMatchWithPress_eq]; decide,
      by rw [lockedMatchWithPress_eq]; decide, by rw [lockedMatchWithPress_eq]; decide,
      hA.1, hA.2.1⟩,
    ⟨by rw [unlockedMismatchWithPress_eq]; decide,
      by rw [unlockedMismatchWithPress_eq]; decide,
      by rw [unlockedMismatchWithPress_eq]; decide,
      by rw [unlockedMismatchWithPress_eq]; decide,
      hB.1, hB.2.1, hB.2.2.1, hB.2.2.2⟩⟩

/-! ## C17, C18: invariants of the controller -/

/-- An interrupt routine writes neither `unlocked`, nor `waiting_new_cipher`,
nor `P2OUT`. -/
theorem step_isr_frame (s : State) (e : Event) (h : e ≠ Event.loop) :
    (step s e).unlocked = s.unlocked ∧
    (step s e).waiting_new_cipher = s.waiting_new_cipher ∧
    (step s e).P2OUT = s.P2OUT := by
  cases e with
  | loop => exact absurd rfl h
  | adc iv m0 m1 =>
    simp only [step, ADC12ISR]
    split <;> [skip; split] <;> exact ⟨rfl, rfl, rfl⟩
  | edge =>
    simp only [step, fallingEdge, P1ISR]
    split <;> [split; skip] <;> exact ⟨rfl, rfl, rfl⟩
  | debounce p =>
    obtain ⟨c1, c2, _, _, _, _, _, c8⟩ := CCR0ISR_frame p s
    exact ⟨c1, c2, c8⟩
  | tick =>
    simp only [step, TAIEISR]
    split <;> exact ⟨rfl, rfl, rfl⟩

theorem awaiting_loopIteration (s : State) (h : s.awaitingImpliesUnlocked) :
    (loopIteration s).awaitingImpliesUnlocked := by
  unfold State.awaitingImpliesUnlocked at *
  rw [programmingState_awaiting_iff, lockStatus_unlocked_iff] at *
  intro hw
  unfold loopIteration at *
  rw [pressStep_unlocked]
  by_cases hp : (checkStep s).button_pressed = 1 ∧ (checkStep s).unlocked = 1
  · exact hp.2
  · have hps : pressStep (checkStep s) = { checkStep s with button_pressed := 0 } := by
      unfold pressStep; rw [if_neg hp]
    rw [hps] at hw
    have hw2 : s.waiting_new_cipher ≠ 0 := by
      rw [← checkStep_waiting s]; exact hw
    rw [checkStep_skip s (fun hh => hw2 hh.2)]
    exact h hw2

theorem awaiting_step (s : State) (e : Event) (h : s.awaitingImpliesUnlocked) :
    (step s e).awaitingImpliesUnlocked := by
  by_cases he : e = Event.loop
  · subst he; exact awaiting_loopIteration s h
  · obtain ⟨f1, f2, _⟩ := step_isr_frame s e he
    unfold State.awaitingImpliesUnlocked at *
    rw [programmingState_awaiting_iff, lockStatus_unlocked_iff] at *
    rw [f1, f2]
    exact h

theorem awaiting_run (evs : List Event) (s : State) (h : s.awaitingImpliesUnlocked) :
    (run s evs).awaitingImpliesUnlocked := by
  induction evs generalizing s with
  | nil => exact h
  | cons e rest ih => exact ih (step s e) (awaiting_step s e h)

theorem awaiting_initState (a b c d : Nat) : (initState a b c d).awaitingImpliesUnlocked := by
  intro h
  rw [programmingState_awaiting_iff] at h
  exact absurd rfl h

/-- C17: in every state reached from power-up, whatever the registers held
before the set-up code, by any sequence of main-loop iterations, ADC
completions, button edges, debounce expiries and display ticks,
ProgrammingState = AwaitingConfirm implies LockStatus = Unlocked. -/
theorem C17_awaiting_implies_unlocked (P2OUT0 P1IFG0 P1IE0 segments0 : Nat)
    (evs : List Event)
    (hA : (run (initState P2OUT0 P1IFG0 P1IE0 segments0) evs).programmingState
      = .AwaitingConfirm) :
    (run (initState P2OUT0 P1IFG0 P1IE0 segments0) evs).lockStatus = .Unlocked :=
  awaiting_run evs _ (awaiting_initState _ _ _ _) hA

/-- C17 at the state reached by opening the lock and pressing once, with the
dials then turned away from the cipher: AwaitingConfirm and still Unlocked. -/
theorem C17_awaiting_implies_unlocked_witness :
    (run (initState 0 0 0 0)
      [.adc 6 0x600 0, .loop, .debounce 0, .loop, .adc 6 0xC00 0, .adc 8 0 0x400,
       .loop]).programmingState = .AwaitingConfirm ∧
    (run (initState 0 0 0 0)
      [.adc 6 0x600 0, .loop, .debounce 0, .loop, .adc 6 0xC00 0, .adc 8 0 0x400,
       .loop]).reading = (7, 2) ∧
    (run (initState 0 0 0 0)
      [.adc 6 0x600 0, .loop, .debounce 0, .loop, .adc 6 0xC00 0, .adc 8 0 0x400,
       .loop]).lockStatus = .Unlocked :=
  ⟨by simp only [run, List.foldl, step, ADC12ISR, scaleDigit_eq]; decide,
   by simp only [run, List.foldl, step, ADC12ISR, scaleDigit_eq]; decide,
   C17_awaiting_implies_unlocked 0 0 0 0 _
     (by simp only [run, List.foldl, step, ADC12ISR, scaleDigit_eq]; decide)⟩

theorem indicators_initState (a b c d : Nat) : (initState a b c d).indicatorsAgree := by
  have h4 : (clearBits8 a (BIT4 ||| BIT5)).testBit 4 = false := by
    rw [testBit_clearBits8, show (BIT4 ||| BIT5).testBit 4 = true by decide,
      show Nat.testBit 0xFFFF 4 = true by decide]
    simp
  have h5 : (clearBits8 a (BIT4 ||| BIT5)).testBit 5 = false := by
    rw [testBit_clearBits8, show (BIT4 ||| BIT5).testBit 5 = true by decide,
      show Nat.testBit 0xFFFF 5 = true by decide]
    simp
  unfold State.indicatorsAgree
  rw [unlockIndicator_eq, programmingIndicator_eq, lockStatus_unlocked_iff,
    programmingState_awaiting_iff]
  show ((clearBits8 a (BIT4 ||| BIT5)).testBit 4 = true ↔ (0 : Nat) = 1) ∧
    ((clearBits8 a (BIT4 ||| BIT5)).testBit 5 = true ↔ (0 : Nat) ≠ 0)
  rw [h4, h5]
  simp

theorem indicators_checkStep (s : State) (h : s.indicatorsAgree) :
    (checkStep s).indicatorsAgree := by
  unfold State.indicatorsAgree at *
  rw [unlockIndicator_eq, programmingIndicator_eq, lockStatus_unlocked_iff,
    programmingState_awaiting_iff] at *
  rw [checkStep_bit5, checkStep_waiting]
  refine ⟨?_, h.2⟩
  by_cases hc : s.check = 1 ∧ s.waiting_new_cipher = 0
  · obtain ⟨h1, h2⟩ := checkStep_compare s hc.1 hc.2
    rw [h1, h2]
    by_cases hm : s.real_cipher_low = s.curr_cipher_low ∧
        s.real_cipher_high = s.curr_cipher_high
    · simp [hm]
    · simp [hm]
  · rw [checkStep_skip s hc]
    exact h.1

theorem indicators_pressStep (s : State) (h : s.indicatorsAgree) :
    (pressStep s).indicatorsAgree := by
  unfold State.indicatorsAgree at *
  rw [unlockIndicator_eq, programmingIndicator_eq, lockStatus_unlocked_iff,
    programmingState_awaiting_iff] at *
  rw [pressStep_bit4, pressStep_unlocked]
  refine ⟨h.1, ?_⟩
  unfold pressStep
  by_cases hp : s.button_pressed = 1 ∧ s.unlocked = 1
  · rw [if_pos hp]
    by_cases hw : s.waiting_new_cipher = 0
    · simp only [hw, if_true]
      show (setBits8 s.P2OUT BIT5).testBit 5 = true ↔ (1 : Nat) ≠ 0
      rw [setBIT5_bit5]; simp
    · simp only [hw, if_false]
      show (clearBits8 s.P2OUT BIT5).testBit 5 = true ↔ (0 : Nat) ≠ 0
      rw [clearBIT5_bit5]; simp
  · rw [if_neg hp]
    exact h.2

theorem indicators_step (s : State) (e : Event) (h : s.indicatorsAgree) :
    (step s e).indicatorsAgree := by
  by_cases he : e = Event.loop
  · subst he; exact indicators_pressStep _ (indicators_checkStep _ h)
  · obtain ⟨f1, f2, f3⟩ := step_isr_frame s e he
    unfold State.indicatorsAgree at *
    rw [unlockIndicator_eq, programmingIndicator_eq, lockStatus_unlocked_iff,
      programmingState_awaiting_iff] at *
    rw [f1, f2, f3]
    exact h

theorem indicators_run (evs : List Event) (s : State) (h : s.indicatorsAgree) :
    (run s evs).indicatorsAgree := by
  induction evs generalizing s with
  | nil => exact h
  | cons e rest ih => exact ih (step s e) (indicators_step s e h)

/-- C18: in every state reached from power-up after the initialisation of the
indicators (lines 130-132), whatever the registers held before, by any
sequence of main-loop iterations, ADC completions, button edges, debounce
expiries and display ticks, the unlock indicator (P2.4) is on iff LockStatus =
Unlocked and the programming indicator (P2.5) is on iff ProgrammingState =
AwaitingConfirm. -/
theorem C18_indicators_agree (P2OUT0 P1IFG0 P1IE0 segments0 : Nat) (evs : List Event) :
    ((run (initState P2OUT0 P1IFG0 P1IE0 segments0) evs).unlockIndicator = true ↔
      (run (initState P2OUT0 P1IFG0 P1IE0 segments0) evs).lockStatus = .Unlocked) ∧
    ((run (initState P2OUT0 P1IFG0 P1IE0 segments0) evs).programmingIndicator = true ↔
      (run (initState P2OUT0 P1IFG0 P1IE0 segments0) evs).programmingState
        = .AwaitingConfirm) :=
  indicators_run evs _ (indicators_initState _ _ _ _)

/-! ## C19: the scaling is monotone and onto the digits -/

/-- A raw sample that is stored as the digit `d`. -/
theorem sample_for_digit (d : Nat) (hd : d ≤ 9) :
    (d * 15 + 8) / 9 * 256 ≤ 4095 ∧ scaleDigit ((d * 15 + 8) / 9 * 256) = d := by
  have hle : (d * 15 + 8) / 9 * 256 ≤ 4095 := by omega
  refine ⟨hle, ?_⟩
  rw [scaleDigit_of_le _ (by omega), Nat.shiftRight_eq_div_pow]
  omega

/-- C19: the scaling of the raw sample to the stored digit is monotone
non-decreasing over the 12-bit range, and onto the digits: for every digit
d in 0..9 there is a 12-bit raw sample whose stored digit is d, so for every
pair of digits there are 12-bit samples after which CurrentReading is that
pair. -/
theorem C19_scaling_monotone_onto :
    (∀ r1 r2 : Nat, r1 ≤ r2 → r2 ≤ 4095 → scaleDigit r1 ≤ scaleDigit r2) ∧
    (∀ d : Nat, d ≤ 9 → ∃ r : Nat, r ≤ 4095 ∧ scaleDigit r = d ∧
      ∀ s : State, (ADC12ISR 6 r 0 s).curr_cipher_low = d ∧
        (ADC12ISR 8 0 r s).curr_cipher_high = d) ∧
    (∀ a b : Nat, a ≤ 9 → b ≤ 9 → ∃ m0 m1 : Nat, m0 ≤ 4095 ∧ m1 ≤ 4095 ∧
      ∀ s : State, (sampleBoth m0 m1 s).reading = (a, b)) := by
  refine ⟨?_, ?_, ?_⟩
  · intro r1 r2 h12 h2
    rw [scaleDigit_of_le r1 (by omega), scaleDigit_of_le r2 (by omega),
      Nat.shiftRight_eq_div_pow, Nat.shiftRight_eq_div_pow]
    omega
  · intro d hd
    obtain ⟨h1, h2⟩ := sample_for_digit d hd
    exact ⟨_, h1, h2, fun s => ⟨h2, h2⟩⟩
  · intro a b ha hb
    obtain ⟨a1, a2⟩ := sample_for_digit a ha
    obtain ⟨b1, b2⟩ := sample_for_digit b hb
    refine ⟨_, _, a1, b1, fun s => ?_⟩
    rw [sampleBoth_fields]
    simp [State.reading, a2, b2]

/-- C19 at two samples of the 12-bit range and at the digit 7. -/
theorem C19_scaling_monotone_onto_witness :
    (1000 : Nat) ≤ 3000 ∧ (3000 : Nat) ≤ 4095 ∧ scaleDigit 1000 ≤ scaleDigit 3000 ∧
    (7 : Nat) ≤ 9 ∧
    (∃ r : Nat, r ≤ 4095 ∧ scaleDigit r = 7 ∧
      ∀ s : State, (ADC12ISR 6 r 0 s).curr_cipher_low = 7 ∧
        (ADC12ISR 8 0 r s).curr_cipher_high = 7) :=
  ⟨by decide, by decide,
   C19_scaling_monotone_onto.1 1000 3000 (by decide) (by decide),
   by decide,
   C19_scaling_monotone_onto.2.1 7 (by decide)⟩

end ElectricLock
